import Mathlib

/-!
A verification development for the fantasy-hockey draft engine
(`league/draft/services.py` with the pure clock helpers of
`league/services/draft_engine.py`).

The Django ORM state touched by the engine is embedded as an explicit
record (`EngineState`): one `Draft` row, the league's `Team` rows, the
`DraftOrder` table, the `DraftPick` grid, the `Player` table and the
`Roster` rows.  Wall-clock time (`timezone.now()`) is passed to every
operation as a natural number of seconds.  Each service function becomes
a pure function on `EngineState`; functions that raise become `Except`.
-/

set_option maxRecDepth 4000

namespace FantasyHockey

/-- `DraftPick.STATUS_*` of `league/models.py`. -/
inductive PickStatus
  | upcoming
  | onClock
  | made
  | auto
deriving DecidableEq

/-- The Python exceptions the draft services raise: `ValueError` and
`PermissionError` with their messages, and the ORM's `DoesNotExist`. -/
inductive PyError
  | valueError (msg : String)
  | permissionError (msg : String)
  | doesNotExist
deriving DecidableEq

/-- `league.models.Team`: the fields the draft engine reads
(primary key, `name`, `manager_id`). -/
structure Team where
  id : Nat
  name : String
  managerId : Nat
deriving DecidableEq

/-- `league.models.Player`: the fields the draft engine reads.
`fantasy_score` is a Django `FloatField` used only through order
comparisons; it is embedded as an integer score. -/
structure Player where
  id : Nat
  full_name : String
  position : String
  fantasy_score : Int
  is_active : Bool
deriving DecidableEq

/-- `league.models.Draft` (the fields the engine touches). -/
structure Draft where
  draft_type : String
  order_mode : String
  rounds : Nat
  time_per_pick : Nat
  is_active : Bool
  is_completed : Bool
  current_pick : Nat
  started_at : Option Nat
  completed_at : Option Nat
  current_pick_started_at : Option Nat
deriving DecidableEq

/-- `league.models.DraftOrder`: one row per team, `position` 1-based. -/
structure DraftOrderRow where
  team : Nat
  position : Nat
deriving DecidableEq

/-- `league.models.DraftPick`.  The `team` foreign key is nullable in
the schema but the grid builder always assigns it, and every claim is
about built drafts, so it is embedded as the owning team's id. -/
structure DraftPick where
  team : Nat
  player : Option Nat
  round_number : Nat
  pick_number : Nat
  status : PickStatus
  started_at : Option Nat
  made_at : Option Nat
deriving DecidableEq

/-- The slice of the datastore one draft's engine operations read and
write.  `picks` is kept in `(round_number, pick_number)` order, the
model's `Meta.ordering`; `roster` is the set of `(team id, player id)`
`Roster` rows. -/
structure EngineState where
  draft : Draft
  teams : List Team
  order : List DraftOrderRow
  picks : List DraftPick
  players : List Player
  roster : List (Nat × Nat)
deriving DecidableEq

/-- `DraftCreateConfig` of `league/draft/services.py`. -/
structure DraftCreateConfig where
  rounds : Nat
  time_per_pick : Nat
deriving DecidableEq

/-- Case-insensitive containment of the single letter G:
`position__icontains="G"`. -/
def icontainsG (s : String) : Bool :=
  s.toList.any (fun c => c == 'G' || c == 'g')

namespace DraftServices

/-- `_teams_for_round` of `league/draft/services.py`: `SNAKE` (and any
draft type other than `LINEAR`) reverses even rounds. -/
def _teams_for_round (base_order : List Nat) (round_number : Nat)
    (draft_type : String) : List Nat :=
  if draft_type == "LINEAR" then base_order
  else if round_number % 2 == 1 then base_order
  else base_order.reverse

/-- A fresh `UPCOMING` pick row as `create_or_rebuild_draft` constructs
it. -/
def grid_pick (t round_number pick_number : Nat) : DraftPick :=
  { team := t
    player := none
    round_number := round_number
    pick_number := pick_number
    status := PickStatus.upcoming
    started_at := none
    made_at := none }

/-- One iteration of the inner loop of `create_or_rebuild_draft`: the
picks of a single round, with the running global pick counter. -/
def _round_picks (round_teams : List Nat) (round_number pick_number : Nat) :
    List DraftPick :=
  match round_teams with
  | [] => []
  | t :: ts =>
      grid_pick t round_number pick_number
        :: _round_picks ts round_number (pick_number + 1)

/-- The outer loop of `create_or_rebuild_draft`, counting down the
remaining rounds; `round_number` and `pick_number` are the loop
variables. -/
def _build_rounds (base_order : List Nat) (draft_type : String) :
    Nat → Nat → Nat → List DraftPick
  | 0, _, _ => []
  | Nat.succ fuel, round_number, pick_number =>
      let rt := _teams_for_round base_order round_number draft_type
      _round_picks rt round_number pick_number ++
        _build_rounds base_order draft_type fuel (round_number + 1)
          (pick_number + rt.length)

/-- The full pick grid `create_or_rebuild_draft` bulk-creates. -/
def build_picks (base_order : List Nat) (rounds : Nat) (draft_type : String) :
    List DraftPick :=
  _build_rounds base_order draft_type rounds 1 1

/-- `enumerate(base_order, start=pos)` turned into `DraftOrder` rows. -/
def _order_rows_from (pos : Nat) : List Nat → List DraftOrderRow
  | [] => []
  | t :: ts => { team := t, position := pos } :: _order_rows_from (pos + 1) ts

/-- The `DraftOrder` rows `create_or_rebuild_draft` bulk-creates
(`enumerate(base_order, start=1)`). -/
def order_rows (base_order : List Nat) : List DraftOrderRow :=
  _order_rows_from 1 base_order

/-- `create_or_rebuild_draft`.  `base_order` is the round-1 team order
returned by `_get_base_order` (for `RANDOM` the shuffle outcome, for
`ALPHA` the name-sorted teams, for `MANUAL` the teams of the validated
existing `DraftOrder` rows); it is passed explicitly because the
`RANDOM` shuffle is nondeterministic.  On any exception the enclosing
`transaction.atomic` rolls the state back, which the `Except.error`
result models. -/
def create_or_rebuild_draft (s : EngineState) (config : DraftCreateConfig)
    (base_order : List Nat) : Except PyError EngineState :=
  if config.rounds < 1 then .error (.valueError "rounds must be >= 1")
  else if config.time_per_pick < 5 then
    .error (.valueError "time_per_pick must be >= 5 seconds")
  else if s.teams.length < 2 then
    .error (.valueError "Need at least 2 teams in the league to create a draft.")
  else
    let d := { s.draft with
                 rounds := config.rounds
                 time_per_pick := config.time_per_pick
                 is_active := false
                 is_completed := false
                 current_pick := 1
                 started_at := none
                 completed_at := none
                 current_pick_started_at := none }
    .ok { s with
            draft := d
            order := order_rows base_order
            picks := build_picks base_order config.rounds s.draft.draft_type }

/-- `get_current_pick`: the first pick (in the model's
`(round_number, pick_number)` ordering, which `picks` preserves) whose
status is `ON_CLOCK`. -/
def get_current_pick (s : EngineState) : Option DraftPick :=
  s.picks.find? (fun p => p.status == PickStatus.onClock)

/-- Saving a fetched `DraftPick` row back: replace the row(s) with that
`pick_number` by the mutated row.  Pick numbers are unique in every
built grid, so exactly one row changes. -/
def save_pick (picks : List DraftPick) (k : Nat) (f : DraftPick → DraftPick) :
    List DraftPick :=
  picks.map (fun p => if p.pick_number == k then f p else p)

/-- `_set_on_clock`. -/
def _set_on_clock (p : DraftPick) (now : Nat) : DraftPick :=
  { p with status := PickStatus.onClock, started_at := some now }

/-- `start_draft` of `league/draft/services.py`. -/
def start_draft (s : EngineState) (now : Nat) :
    Except PyError (EngineState × DraftPick) :=
  if s.draft.is_completed then
    .error (.valueError "Draft is already completed.")
  else if s.picks.isEmpty then
    .error (.valueError "Draft has no picks. Build the draft grid first.")
  else
    let d := { s.draft with
                 is_active := true
                 started_at := some (s.draft.started_at.getD now)
                 current_pick := 1
                 current_pick_started_at := some now }
    match s.picks.find? (fun p => p.pick_number == 1) with
    | none => .error .doesNotExist
    | some first =>
        .ok ({ s with
                 draft := d
                 picks := save_pick s.picks 1 (fun p => _set_on_clock p now) },
             _set_on_clock first now)

/-- `is_pick_expired`: strict comparison of the elapsed seconds since
`current_pick_started_at` against `time_per_pick`. -/
def is_pick_expired (s : EngineState) (now : Nat) : Bool :=
  match s.draft.current_pick_started_at with
  | none => false
  | some t0 => decide ((now : Int) - (t0 : Int) > (s.draft.time_per_pick : Int))

/-- `advance_to_next_pick`: completes the draft when
`current_pick + 1` exceeds `rounds * teamCount`, otherwise moves the
counter forward and stamps the next pick `ON_CLOCK`. -/
def advance_to_next_pick (s : EngineState) (now : Nat) :
    Except PyError (EngineState × Option DraftPick) :=
  let next := s.draft.current_pick + 1
  let total := s.draft.rounds * s.teams.length
  if next > total then
    let d := { s.draft with
                 is_completed := true
                 is_active := false
                 completed_at := some now }
    .ok ({ s with draft := d }, none)
  else
    let d := { s.draft with
                 current_pick := next
                 current_pick_started_at := some now }
    match s.picks.find? (fun p => p.pick_number == next) with
    | none => .error .doesNotExist
    | some np =>
        .ok ({ s with
                 draft := d
                 picks := save_pick s.picks next (fun p => _set_on_clock p now) },
             some (_set_on_clock np now))

/-- `Roster.objects.get_or_create(team=..., player=...)`: an idempotent
insert. -/
def roster_get_or_create (r : List (Nat × Nat)) (teamId playerId : Nat) :
    List (Nat × Nat) :=
  if r.contains (teamId, playerId) then r else r ++ [(teamId, playerId)]

/-- The mutation `make_pick` applies to the on-clock row:
`player`, `status=MADE`, `made_at=now`. -/
def resolve_pick (player_id now : Nat) (p : DraftPick) : DraftPick :=
  { p with
      player := some player_id
      status := PickStatus.made
      made_at := some now }

/-- The state after `make_pick` has saved the resolved row and done the
roster insert, just before it calls `advance_to_next_pick`. -/
def made_state (s : EngineState) (current : DraftPick)
    (player_id now : Nat) : EngineState :=
  { s with
      picks := save_pick s.picks current.pick_number
        (resolve_pick player_id now)
      roster := roster_get_or_create s.roster current.team player_id }

/-- `make_pick` of `league/draft/services.py`.  The acting user is its
id; `now` is `timezone.now()`. -/
def make_pick (s : EngineState) (userId player_id now : Nat) :
    Except PyError (EngineState × DraftPick) :=
  if !s.draft.is_active || s.draft.is_completed then
    .error (.valueError "Draft is not active.")
  else
    match get_current_pick s with
    | none => .error (.valueError "No pick is currently on the clock.")
    | some current =>
      match s.teams.find? (fun t => t.id == current.team) with
      | none => .error .doesNotExist
      | some team =>
        if team.managerId != userId then
          .error (.permissionError "Not your pick.")
        else if s.picks.any (fun p => p.player == some player_id) then
          .error (.valueError "Player already drafted.")
        else
          match s.players.find? (fun pl => pl.id == player_id) with
          | none => .error .doesNotExist
          | some _pl =>
            match advance_to_next_pick (made_state s current player_id now) now with
            | .error e => .error e
            | .ok (s3, nextPick) =>
                .ok (s3, nextPick.getD (resolve_pick player_id now current))

/-- The rostered players of a team whose `position` icontains G
(`Roster.objects.filter(team=team, player__position__icontains="G").count()`). -/
def goalie_count (s : EngineState) (teamId : Nat) : Nat :=
  s.roster.countP (fun rp =>
    rp.1 == teamId &&
      (match s.players.find? (fun pl => pl.id == rp.2) with
       | some pl => icontainsG pl.position
       | none => false))

/-- `_infer_team_need`: fewer than 2 rostered goalies prefers goalies
(the `hasattr` guard in the source is always true). -/
def _infer_team_need (s : EngineState) (teamId : Nat) : String :=
  if goalie_count s teamId < 2 then "G" else "SKATER"

/-- Player ids already resolved into any pick of the draft
(`exclude(player_id=None)`). -/
def drafted_ids (s : EngineState) : List Nat :=
  s.picks.filterMap (fun p => p.player)

/-- The unrestricted eligible pool of `_best_available_player`: active
players not already drafted in this draft. -/
def available_pool (s : EngineState) : List Player :=
  s.players.filter (fun pl => pl.is_active && !(drafted_ids s).contains pl.id)

/-- The pool the need inference prefers: the goalie sub-pool when the
team has fewer than 2 rostered goalies, the skater sub-pool otherwise
(the composition of `_infer_team_need` with the pool restriction of
`_best_available_player`). -/
def preferred_pool (s : EngineState) (teamId : Nat) : List Player :=
  if goalie_count s teamId < 2 then
    (available_pool s).filter (fun pl => icontainsG pl.position)
  else
    (available_pool s).filter (fun pl => !icontainsG pl.position)

/-- `a` sorts strictly before `b` under
`order_by("-fantasy_score", "full_name")`. -/
def rank_before (a b : Player) : Bool :=
  decide (a.fantasy_score > b.fantasy_score) ||
    (a.fantasy_score == b.fantasy_score && decide (a.full_name < b.full_name))

/-- `.order_by("-fantasy_score", "full_name").first()`: the first row of
the stable sort, i.e. the earliest element no other element sorts
strictly before. -/
def first_by_rank : List Player → Option Player
  | [] => none
  | p :: ps =>
      match first_by_rank ps with
      | none => some p
      | some q => if rank_before q p then some q else some p

/-- `_best_available_player`: active players not already drafted in this
draft, restricted to the preferred pool, falling back to the
unrestricted pool. -/
def _best_available_player (s : EngineState) (preferred : String) :
    Option Player :=
  let qs := available_pool s
  let qs_pref :=
    if preferred == "G" then qs.filter (fun pl => icontainsG pl.position)
    else if preferred == "SKATER" then qs.filter (fun pl => !icontainsG pl.position)
    else qs
  match first_by_rank qs_pref with
  | some pl => some pl
  | none => first_by_rank qs

/-- The mutation `autopick_current` applies when no eligible player
remains: the row is still resolved (`AUTO`, no player assigned). -/
def auto_mark (now : Nat) (p : DraftPick) : DraftPick :=
  { p with status := PickStatus.auto, made_at := some now }

/-- The mutation `autopick_current` applies when a player was selected:
`player`, `status=AUTO`, `made_at=now`. -/
def auto_assign (pl : Player) (now : Nat) (p : DraftPick) : DraftPick :=
  { p with
      player := some pl.id
      status := PickStatus.auto
      made_at := some now }

/-- The state after `autopick_current` resolved the row with no player
available, before its `advance_to_next_pick` call. -/
def auto_marked_state (s : EngineState) (current : DraftPick)
    (now : Nat) : EngineState :=
  { s with picks := save_pick s.picks current.pick_number (auto_mark now) }

/-- The state after `autopick_current` resolved the row with the
selected player and did the roster insert, before its
`advance_to_next_pick` call. -/
def auto_assigned_state (s : EngineState) (current : DraftPick)
    (pl : Player) (now : Nat) : EngineState :=
  { s with
      picks := save_pick s.picks current.pick_number (auto_assign pl now)
      roster := roster_get_or_create s.roster current.team pl.id }

/-- `autopick_current` of `league/draft/services.py`. -/
def autopick_current (s : EngineState) (now : Nat) :
    Except PyError (EngineState × DraftPick) :=
  match get_current_pick s with
  | none => .error (.valueError "No pick on the clock to autopick.")
  | some current =>
    match _best_available_player s (_infer_team_need s current.team) with
    | none =>
        match advance_to_next_pick (auto_marked_state s current now) now with
        | .error e => .error e
        | .ok (s2, _) => .ok (s2, auto_mark now current)
    | some pl =>
        match advance_to_next_pick (auto_assigned_state s current pl now) now with
        | .error e => .error e
        | .ok (s3, _) => .ok (s3, auto_assign pl now current)

/-- `tick_draft` of `league/draft/services.py`. -/
def tick_draft (s : EngineState) (now : Nat) :
    Except PyError (EngineState × Option DraftPick) :=
  if !s.draft.is_active || s.draft.is_completed then .ok (s, none)
  else
    match get_current_pick s with
    | none => advance_to_next_pick s now
    | some current =>
      if is_pick_expired s now then
        match autopick_current s now with
        | .error e => .error e
        | .ok (s1, _) =>
          match get_current_pick s1 with
          | some p => .ok (s1, some p)
          | none =>
              if s1.draft.is_completed then .ok (s1, none)
              else advance_to_next_pick s1 now
      else .ok (s, some current)

end DraftServices

namespace DraftEngine

/-- `compute_round_pick` of `league/services/draft_engine.py`, with its
validations (`_require_order_exists`, team-count and pick-number
guards); `n` is the `DraftOrder` row count. -/
def compute_round_pick (n p : Nat) : Except String (Nat × Nat) :=
  if n == 0 then .error "Draft order does not exist. Run generate_draft_order first."
  else if n < 2 then .error "Draft must have at least 2 teams in the order."
  else if p < 1 then .error "Pick number must be >= 1."
  else .ok (((p - 1) / n) + 1, ((p - 1) % n) + 1)

/-- The `DraftOrder` position `_team_for_snake` looks up. -/
def _snake_position (round_number pick_in_round n : Nat) : Nat :=
  if round_number % 2 == 1 then pick_in_round else (n - pick_in_round) + 1

/-- The `DraftOrder` position `_team_for_linear` looks up. -/
def _linear_position (pick_in_round : Nat) : Nat := pick_in_round

/-- `DraftOrder.objects.get(draft=..., position=pos).team`. -/
def order_lookup (order : List DraftOrderRow) (pos : Nat) : Option Nat :=
  (order.find? (fun r => r.position == pos)).map (fun r => r.team)

end DraftEngine

/-! ### Reachable states of the engine -/

/-- The number of `ON_CLOCK` rows of the draft. -/
def on_clock_count (s : EngineState) : Nat :=
  s.picks.countP (fun p => p.status == PickStatus.onClock)

/-- Pick rows carry pairwise distinct global pick numbers. -/
def distinct_pick_numbers (s : EngineState) : Prop :=
  s.picks.Pairwise (fun a b => a.pick_number ≠ b.pick_number)

/-- No player is the resolved player of two rows with different pick
numbers. -/
def no_dup_players (picks : List DraftPick) : Prop :=
  ∀ p1 ∈ picks, ∀ p2 ∈ picks, p1.pick_number ≠ p2.pick_number →
    ∀ x, p1.player = some x → p2.player ≠ some x

/-- No player is the resolved player of two different pick rows. -/
def no_duplicate_players (s : EngineState) : Prop :=
  no_dup_players s.picks

/-- The single-`ON_CLOCK` state invariant: pick numbers are distinct and
the draft has exactly one `ON_CLOCK` row while active, none
otherwise. -/
def on_clock_invariant (s : EngineState) : Prop :=
  distinct_pick_numbers s ∧
  on_clock_count s = (if s.draft.is_active = true then 1 else 0)

/-- The counter-bounds invariant of C10: at least one round, at least
two teams, and `current_pick` within `1..rounds*teamCount`. -/
def pick_bounds (s : EngineState) : Prop :=
  1 ≤ s.draft.rounds ∧ 2 ≤ s.teams.length ∧
  1 ≤ s.draft.current_pick ∧
  s.draft.current_pick ≤ s.draft.rounds * s.teams.length

/-- States reachable through the engine operations exactly as exposed by
`league/draft/services.py`: build, start, tick, makePick, autopick and
advance, each invoked at an arbitrary wall-clock time, `make_pick` by an
arbitrary user on an arbitrary player.  A failing call raises inside
`transaction.atomic`, rolls back, and leaves the state unchanged, so
only `.ok` results produce new states.  The base round-1 order fed to
the builder covers each league team exactly once, as `_get_base_order`
produces for every order mode. -/
inductive ReachAll : EngineState → Prop
  | build (s : EngineState) (config : DraftCreateConfig)
      (base_order : List Nat) (s' : EngineState)
      (hperm : base_order.Perm (s.teams.map Team.id))
      (h : DraftServices.create_or_rebuild_draft s config base_order = .ok s') :
      ReachAll s'
  | start (s s' : EngineState) (now : Nat) (p : DraftPick)
      (hs : ReachAll s)
      (h : DraftServices.start_draft s now = .ok (s', p)) : ReachAll s'
  | tick (s s' : EngineState) (now : Nat) (r : Option DraftPick)
      (hs : ReachAll s)
      (h : DraftServices.tick_draft s now = .ok (s', r)) : ReachAll s'
  | makePick (s s' : EngineState) (userId player_id now : Nat) (p : DraftPick)
      (hs : ReachAll s)
      (h : DraftServices.make_pick s userId player_id now = .ok (s', p)) :
      ReachAll s'
  | autopick (s s' : EngineState) (now : Nat) (p : DraftPick)
      (hs : ReachAll s)
      (h : DraftServices.autopick_current s now = .ok (s', p)) : ReachAll s'
  | advance (s s' : EngineState) (now : Nat) (r : Option DraftPick)
      (hs : ReachAll s)
      (h : DraftServices.advance_to_next_pick s now = .ok (s', r)) : ReachAll s'

/-- Reachability through the disciplined call pattern of the draft-room
views: `start_draft` is only invoked on a draft that is not already
running, and `advance_to_next_pick` runs only as the internal tail of
`make_pick`/`autopick_current`/`tick_draft`, never as a bare operation
on a live draft. -/
inductive Reach : EngineState → Prop
  | build (s : EngineState) (config : DraftCreateConfig)
      (base_order : List Nat) (s' : EngineState)
      (hperm : base_order.Perm (s.teams.map Team.id))
      (h : DraftServices.create_or_rebuild_draft s config base_order = .ok s') :
      Reach s'
  | start (s s' : EngineState) (now : Nat) (p : DraftPick)
      (hs : Reach s) (hinactive : s.draft.is_active = false)
      (h : DraftServices.start_draft s now = .ok (s', p)) : Reach s'
  | tick (s s' : EngineState) (now : Nat) (r : Option DraftPick)
      (hs : Reach s)
      (h : DraftServices.tick_draft s now = .ok (s', r)) : Reach s'
  | makePick (s s' : EngineState) (userId player_id now : Nat) (p : DraftPick)
      (hs : Reach s)
      (h : DraftServices.make_pick s userId player_id now = .ok (s', p)) :
      Reach s'
  | autopick (s s' : EngineState) (now : Nat) (p : DraftPick)
      (hs : Reach s)
      (h : DraftServices.autopick_current s now = .ok (s', p)) : Reach s'

/-! ### A concrete two-team scenario -/

/-- Extract the post-state of an engine call, falling back to a default
on error. -/
def result_state {α : Type} (dflt : EngineState)
    (r : Except PyError (EngineState × α)) : EngineState :=
  match r with
  | .ok x => x.1
  | .error _ => dflt

/-- A `SNAKE`/`ALPHA` draft with the model defaults, not yet built. -/
def demo_draft : Draft :=
  { draft_type := "SNAKE", order_mode := "ALPHA", rounds := 16,
    time_per_pick := 120, is_active := false, is_completed := false,
    current_pick := 1, started_at := none, completed_at := none,
    current_pick_started_at := none }

/-- Four active players: two skaters with equal top score (name breaks
the tie) and two goalies. -/
def demo_players : List Player :=
  [ { id := 101, full_name := "Gabe", position := "G",
      fantasy_score := 50, is_active := true },
    { id := 102, full_name := "Alice", position := "C",
      fantasy_score := 90, is_active := true },
    { id := 103, full_name := "Bob", position := "C",
      fantasy_score := 90, is_active := true },
    { id := 104, full_name := "Gus", position := "G",
      fantasy_score := 40, is_active := true } ]

/-- Two teams: team 1 "A" managed by user 10, team 2 "B" by user 20. -/
def demo0 : EngineState :=
  { draft := demo_draft
    teams := [ { id := 1, name := "A", managerId := 10 },
               { id := 2, name := "B", managerId := 20 } ]
    order := []
    picks := []
    players := demo_players
    roster := [] }

/-- `demo0` after building a 2-round snake grid (base order team 1 then
team 2; picks 1..4 owned by teams 1,2,2,1). -/
def demo_built : EngineState :=
  match DraftServices.create_or_rebuild_draft demo0 ⟨2, 5⟩ [1, 2] with
  | .ok s => s
  | .error _ => demo0

/-- `demo_built` started at time 100: pick 1 `ON_CLOCK`. -/
def demo_started : EngineState :=
  result_state demo_built (DraftServices.start_draft demo_built 100)

/-- `demo_started` after user 10 drafts player 102 at time 101:
pick 2 `ON_CLOCK`. -/
def demo_mid1 : EngineState :=
  result_state demo_started (DraftServices.make_pick demo_started 10 102 101)

/-- `demo_mid1` after user 20 drafts player 103 at time 102:
pick 3 `ON_CLOCK`. -/
def demo_mid2 : EngineState :=
  result_state demo_mid1 (DraftServices.make_pick demo_mid1 20 103 102)

/-- `demo_mid2` after user 20 drafts player 101 at time 103: the final
pick 4 (team 1) is `ON_CLOCK`. -/
def demo_last_on_clock : EngineState :=
  result_state demo_mid2 (DraftServices.make_pick demo_mid2 20 101 103)

/-- A drifted state: the built grid with the draft marked active on pick
1 but no row `ON_CLOCK` (the situation `tick_draft`'s safety repair
handles). -/
def demo_drifted : EngineState :=
  { demo_built with
      draft := { demo_built.draft with
                   is_active := true
                   started_at := some 100
                   current_pick := 1
                   current_pick_started_at := some 100 } }

/-- `demo_started` after a bare `advance_to_next_pick` at time 101. -/
def demo_double_clock : EngineState :=
  result_state demo_started
    (DraftServices.advance_to_next_pick demo_started 101)

/-- `demo_last_on_clock` after user 10 drafts player 104 at time 104:
every pick resolved, draft completed. -/
def demo_completed : EngineState :=
  result_state demo_last_on_clock
    (DraftServices.make_pick demo_last_on_clock 10 104 104)

/-- `demo_drifted` after a `tick_draft` at time 101. -/
def demo_drifted_ticked : EngineState :=
  result_state demo_drifted (DraftServices.tick_draft demo_drifted 101)

/-- `demo_started` after an `autopick_current` at time 101: team 1 has
no rostered goalie, so the goalie pool is preferred and Gabe (highest
goalie score) is taken. -/
def demo_autopicked : EngineState :=
  result_state demo_started
    (DraftServices.autopick_current demo_started 101)

/-! ### Lemmas about the grid builder -/

namespace DraftServices

theorem _teams_for_round_length (base_order : List Nat) (round_number : Nat)
    (draft_type : String) :
    (_teams_for_round base_order round_number draft_type).length =
      base_order.length := by
  unfold _teams_for_round
  split
  · rfl
  · split
    · rfl
    · exact List.length_reverse base_order

theorem _round_picks_length (rt : List Nat) (r p0 : Nat) :
    (_round_picks rt r p0).length = rt.length := by
  induction rt generalizing p0 with
  | nil => rfl
  | cons t ts ih => simp [_round_picks, ih]

theorem _round_picks_map_pick_number (rt : List Nat) (r p0 : Nat) :
    (_round_picks rt r p0).map (fun p => p.pick_number) =
      List.range' p0 rt.length := by
  induction rt generalizing p0 with
  | nil => rfl
  | cons t ts ih =>
      simp only [_round_picks, List.map_cons, List.length_cons, List.range'_succ]
      exact congrArg _ (ih (p0 + 1))

theorem _round_picks_map_team (rt : List Nat) (r p0 : Nat) :
    (_round_picks rt r p0).map (fun p => p.team) = rt := by
  induction rt generalizing p0 with
  | nil => rfl
  | cons t ts ih =>
      simp only [_round_picks, List.map_cons, grid_pick]
      exact congrArg _ (ih (p0 + 1))

theorem mem_round_picks (rt : List Nat) (r p0 : Nat) (pk : DraftPick)
    (h : pk ∈ _round_picks rt r p0) :
    ∃ j, ∃ hj : j < rt.length, pk = grid_pick (rt.get ⟨j, hj⟩) r (p0 + j) := by
  induction rt generalizing p0 with
  | nil => cases h
  | cons t ts ih =>
      rcases List.mem_cons.mp h with h | h
      · exact ⟨0, Nat.succ_pos _, by simpa using h⟩
      · obtain ⟨j, hj, rfl⟩ := ih (p0 + 1) h
        exact ⟨j + 1, Nat.succ_lt_succ hj, by simp [Nat.add_assoc, Nat.add_comm 1 j]⟩

theorem _round_picks_filter_round (rt : List Nat) (r p0 k : Nat) :
    (_round_picks rt r p0).filter (fun p => p.round_number == k) =
      if r = k then _round_picks rt r p0 else [] := by
  induction rt generalizing p0 with
  | nil => simp [_round_picks]
  | cons t ts ih =>
      simp only [_round_picks, List.filter_cons]
      by_cases hrk : r = k
      · subst hrk
        simp [grid_pick, ih]
      · simp [grid_pick, hrk, ih, Ne.symm hrk]

theorem _build_rounds_length (base_order : List Nat) (dt : String)
    (f r0 p0 : Nat) :
    (_build_rounds base_order dt f r0 p0).length = f * base_order.length := by
  induction f generalizing r0 p0 with
  | zero => simp [_build_rounds]
  | succ f ih =>
      simp only [_build_rounds, List.length_append, _round_picks_length,
        _teams_for_round_length, ih, Nat.succ_mul]
      omega

theorem _build_rounds_map_pick_number (base_order : List Nat) (dt : String)
    (f r0 p0 : Nat) :
    (_build_rounds base_order dt f r0 p0).map (fun p => p.pick_number) =
      List.range' p0 (f * base_order.length) := by
  induction f generalizing r0 p0 with
  | zero => simp [_build_rounds]
  | succ f ih =>
      simp only [_build_rounds, List.map_append, _round_picks_map_pick_number,
        _teams_for_round_length, ih]
      rw [List.range'_append_1]
      congr 1
      simp [Nat.succ_mul, Nat.add_comm]

theorem mem_build_rounds_round_ge (base_order : List Nat) (dt : String)
    (f r0 p0 : Nat) (pk : DraftPick)
    (h : pk ∈ _build_rounds base_order dt f r0 p0) : r0 ≤ pk.round_number := by
  induction f generalizing r0 p0 with
  | zero => cases h
  | succ f ih =>
      rcases List.mem_append.mp h with h | h
      · obtain ⟨j, hj, rfl⟩ := mem_round_picks _ _ _ _ h
        exact Nat.le_refl _
      · exact Nat.le_of_succ_le (ih (r0 + 1) _ h)

theorem _build_rounds_filter_round (base_order : List Nat) (dt : String)
    (f r0 p0 k : Nat) (hk1 : r0 ≤ k) (hk2 : k < r0 + f) :
    (_build_rounds base_order dt f r0 p0).filter
        (fun p => p.round_number == k) =
      _round_picks (_teams_for_round base_order k dt) k
        (p0 + (k - r0) * base_order.length) := by
  induction f generalizing r0 p0 with
  | zero => omega
  | succ f ih =>
      simp only [_build_rounds, List.filter_append]
      by_cases hk : r0 = k
      · subst hk
        rw [_round_picks_filter_round]
        simp only [if_pos rfl]
        have hnil : (_build_rounds base_order dt f (r0 + 1)
            (p0 + (_teams_for_round base_order r0 dt).length)).filter
              (fun p => p.round_number == r0) = [] := by
          apply List.filter_eq_nil_iff.mpr
          intro pk hpk
          have := mem_build_rounds_round_ge _ _ _ _ _ _ hpk
          simp only [beq_iff_eq]
          omega
        rw [hnil, List.append_nil, Nat.sub_self, Nat.zero_mul, Nat.add_zero]
        simp
      · have hk1' : r0 + 1 ≤ k := by omega
        rw [_round_picks_filter_round]
        simp only [if_neg hk, List.nil_append]
        rw [ih (r0 + 1) (p0 + (_teams_for_round base_order r0 dt).length)
          hk1' (by omega)]
        congr 1
        rw [_teams_for_round_length]
        have : k - r0 = (k - (r0 + 1)) + 1 := by omega
        rw [this, Nat.succ_mul]
        omega

theorem mem_build_rounds (base_order : List Nat) (dt : String)
    (f r0 p0 : Nat) (pk : DraftPick)
    (h : pk ∈ _build_rounds base_order dt f r0 p0) :
    ∃ rn j, r0 ≤ rn ∧ rn < r0 + f ∧
      ∃ hj : j < (_teams_for_round base_order rn dt).length,
        pk = grid_pick ((_teams_for_round base_order rn dt).get ⟨j, hj⟩)
          rn (p0 + (rn - r0) * base_order.length + j) := by
  induction f generalizing r0 p0 with
  | zero => cases h
  | succ f ih =>
      rcases List.mem_append.mp h with h | h
      · obtain ⟨j, hj, rfl⟩ := mem_round_picks _ _ _ _ h
        exact ⟨r0, j, Nat.le_refl _, by omega, hj, by simp⟩
      · obtain ⟨rn, j, h1, h2, hj, hpk⟩ := ih (r0 + 1) _ h
        refine ⟨rn, j, by omega, by omega, hj, ?_⟩
        rw [hpk]
        congr 1
        rw [_teams_for_round_length]
        have h3 : rn - r0 = (rn - (r0 + 1)) + 1 := by omega
        rw [h3, Nat.succ_mul]
        omega

theorem mem_build_rounds_props (base_order : List Nat) (dt : String)
    (f r0 p0 : Nat) (pk : DraftPick)
    (h : pk ∈ _build_rounds base_order dt f r0 p0) :
    pk.status = PickStatus.upcoming ∧ pk.player = none := by
  obtain ⟨rn, j, _, _, hj, rfl⟩ := mem_build_rounds _ _ _ _ _ _ h
  exact ⟨rfl, rfl⟩

theorem order_lookup_order_rows_from (base_order : List Nat) (p0 j : Nat)
    (hj : j < base_order.length) :
    DraftEngine.order_lookup (_order_rows_from p0 base_order) (p0 + j) =
      some (base_order.get ⟨j, hj⟩) := by
  induction base_order generalizing p0 j with
  | nil => exact absurd hj (Nat.not_lt_zero j)
  | cons t ts ih =>
      cases j with
      | zero => simp [_order_rows_from, DraftEngine.order_lookup, List.find?]
      | succ j =>
          have hne : (p0 == p0 + (j + 1)) = false := by
            simp only [beq_eq_false_iff_ne, ne_eq]
            omega
          have hrec := ih (p0 + 1) j (Nat.lt_of_succ_lt_succ hj)
          have harg : p0 + 1 + j = p0 + (j + 1) := by omega
          rw [harg] at hrec
          simpa [_order_rows_from, DraftEngine.order_lookup, List.find?, hne]
            using hrec

theorem order_lookup_order_rows (base_order : List Nat) (j : Nat)
    (hj : j < base_order.length) :
    DraftEngine.order_lookup (order_rows base_order) (1 + j) =
      some (base_order.get ⟨j, hj⟩) :=
  order_lookup_order_rows_from base_order 1 j hj

/-- C1: for a league with at least two teams and a configuration with at
least one round, `create_or_rebuild_draft` succeeds and creates exactly
`rounds * teamCount` pick rows, all `UPCOMING` with no player, globally
numbered `1..rounds*teamCount` in row-major (round, then
position-in-round) order, where every round of a `LINEAR` draft and
every odd round of a `SNAKE` draft uses the base round-1 team order and
every even `SNAKE` round uses its exact reverse. -/
theorem c1_grid_build (s : EngineState) (config : DraftCreateConfig)
    (base_order : List Nat)
    (hbase : base_order.length = s.teams.length)
    (hn : 2 ≤ s.teams.length) (hr : 1 ≤ config.rounds)
    (ht : 5 ≤ config.time_per_pick) :
    ∃ s', create_or_rebuild_draft s config base_order = .ok s' ∧
      s'.picks.length = config.rounds * s.teams.length ∧
      (∀ pk ∈ s'.picks, pk.status = PickStatus.upcoming ∧ pk.player = none) ∧
      s'.picks.map (fun p => p.pick_number) =
        List.range' 1 (config.rounds * s.teams.length) ∧
      ∀ k, 1 ≤ k → k ≤ config.rounds →
        (s.draft.draft_type = "LINEAR" →
          (s'.picks.filter (fun p => p.round_number == k)).map (fun p => p.team)
            = base_order) ∧
        (s.draft.draft_type = "SNAKE" →
          (s'.picks.filter (fun p => p.round_number == k)).map (fun p => p.team)
            = if k % 2 = 1 then base_order else base_order.reverse) := by
  have hok : create_or_rebuild_draft s config base_order =
      .ok { s with
              draft := { s.draft with
                           rounds := config.rounds
                           time_per_pick := config.time_per_pick
                           is_active := false
                           is_completed := false
                           current_pick := 1
                           started_at := none
                           completed_at := none
                           current_pick_started_at := none }
              order := order_rows base_order
              picks := build_picks base_order config.rounds s.draft.draft_type } := by
    unfold create_or_rebuild_draft
    rw [if_neg (by omega), if_neg (by omega), if_neg (by omega)]
  refine ⟨_, hok, ?_, ?_, ?_, ?_⟩
  · simp only [build_picks, _build_rounds_length, hbase]
  · intro pk hpk
    exact mem_build_rounds_props _ _ _ _ _ _ hpk
  · simp only [build_picks, _build_rounds_map_pick_number, hbase]
  · intro k hk1 hk2
    have hfilter : (build_picks base_order config.rounds
        s.draft.draft_type).filter (fun p => p.round_number == k) =
        _round_picks (_teams_for_round base_order k s.draft.draft_type) k
          (1 + (k - 1) * base_order.length) := by
      exact _build_rounds_filter_round base_order s.draft.draft_type
        config.rounds 1 1 k hk1 (by omega)
    constructor
    · intro hdt
      rw [hdt] at hfilter
      rw [hdt, hfilter, _round_picks_map_team]
      simp [_teams_for_round]
    · intro hdt
      rw [hdt] at hfilter
      rw [hdt, hfilter, _round_picks_map_team]
      by_cases hodd : k % 2 = 1
      · simp [_teams_for_round, hodd]
      · simp [_teams_for_round, hodd]

/-- Witness for C1: the concrete two-team, two-round build. -/
theorem c1_grid_build_witness :
    ∃ s', create_or_rebuild_draft demo0 ⟨2, 5⟩ [1, 2] = .ok s' ∧
      s'.picks.length = 2 * 2 ∧
      s'.picks.map (fun p => p.pick_number) = List.range' 1 (2 * 2) := by
  obtain ⟨s', hok, hlen, _, hmap, _⟩ :=
    c1_grid_build demo0 ⟨2, 5⟩ [1, 2] (by decide) (by decide) (by decide)
      (by decide)
  exact ⟨s', hok, hlen, hmap⟩

/-- C2: for every team count `n >= 2` and pick index `p` in
`1..rounds*n`, the pure clock functions of
`league/services/draft_engine.py` (`compute_round_pick` and the
`DraftOrder` position chosen by `_team_for_linear`/`_team_for_snake`)
agree with the `round_number` and owning team that
`create_or_rebuild_draft` materialized on the `DraftPick` row whose
global `pick_number` is `p`, for any draft type (both sides default to
snake behaviour for non-`LINEAR` types). -/
theorem c2_clock_refines_grid (base_order : List Nat) (rounds p : Nat)
    (dt : String) (hn : 2 ≤ base_order.length) (hp1 : 1 ≤ p)
    (hp2 : p ≤ rounds * base_order.length) :
    DraftEngine.compute_round_pick base_order.length p =
      .ok ((p - 1) / base_order.length + 1, (p - 1) % base_order.length + 1) ∧
    (∃ pk ∈ build_picks base_order rounds dt, pk.pick_number = p) ∧
    ∀ pk ∈ build_picks base_order rounds dt, pk.pick_number = p →
      pk.round_number = (p - 1) / base_order.length + 1 ∧
      DraftEngine.order_lookup (order_rows base_order)
        (if dt == "LINEAR" then
           DraftEngine._linear_position ((p - 1) % base_order.length + 1)
         else
           DraftEngine._snake_position ((p - 1) / base_order.length + 1)
             ((p - 1) % base_order.length + 1) base_order.length) =
        some pk.team := by
  refine ⟨?_, ?_, ?_⟩
  · unfold DraftEngine.compute_round_pick
    have h0 : (base_order.length == 0) = false := by
      simp only [beq_eq_false_iff_ne, ne_eq]
      omega
    have h1 : ¬ (base_order.length < 2) := by omega
    have h2 : ¬ (p < 1) := by omega
    simp [h0, h1, h2]
  · have hmap := _build_rounds_map_pick_number base_order dt rounds 1 1
    have hp : p ∈ List.range' 1 (rounds * base_order.length) := by
      rw [List.mem_range'_1]
      omega
    rw [← hmap] at hp
    obtain ⟨pk, hpk, hnum⟩ := List.mem_map.mp hp
    exact ⟨pk, hpk, hnum⟩
  · intro pk hpk hnum
    obtain ⟨rn, j, hr1, hr2, hj, rfl⟩ := mem_build_rounds _ _ _ _ _ _ hpk
    have hjlen : j < base_order.length := by
      rw [← _teams_for_round_length base_order rn dt]; exact hj
    have hnum' : p - 1 = base_order.length * (rn - 1) + j := by
      simp only [grid_pick] at hnum
      have := Nat.mul_comm (rn - 1) base_order.length
      omega
    have hpos : 0 < base_order.length := by omega
    have hdiv : (p - 1) / base_order.length = rn - 1 := by
      rw [hnum', Nat.mul_add_div hpos, Nat.div_eq_of_lt hjlen, Nat.add_zero]
    have hmod : (p - 1) % base_order.length = j := by
      rw [hnum', Nat.mul_add_mod, Nat.mod_eq_of_lt hjlen]
    refine ⟨?_, ?_⟩
    · simp only [grid_pick, hdiv]
      omega
    · have hteam : (grid_pick ((_teams_for_round base_order rn dt).get ⟨j, hj⟩)
          rn (1 + (rn - 1) * base_order.length + j)).team =
          (_teams_for_round base_order rn dt).get ⟨j, hj⟩ := rfl
      rw [hteam, hdiv, hmod]
      have hrn : rn - 1 + 1 = rn := by omega
      rw [hrn]
      by_cases hlin : dt == "LINEAR"
      · have hbase : _teams_for_round base_order rn dt = base_order := by
          unfold _teams_for_round
          rw [if_pos hlin]
        rw [if_pos hlin]
        unfold DraftEngine._linear_position
        have := order_lookup_order_rows base_order j hjlen
        rw [show 1 + j = j + 1 from by omega] at this
        rw [this]
        congr 1
        apply List.get_of_eq hbase.symm
      · rw [if_neg hlin]
        unfold DraftEngine._snake_position
        by_cases hodd : rn % 2 == 1
        · have hbase : _teams_for_round base_order rn dt = base_order := by
            unfold _teams_for_round
            rw [if_neg hlin, if_pos hodd]
          rw [if_pos hodd]
          have := order_lookup_order_rows base_order j hjlen
          rw [show 1 + j = j + 1 from by omega] at this
          rw [this]
          congr 1
          apply List.get_of_eq hbase.symm
        · have hbase : _teams_for_round base_order rn dt = base_order.reverse := by
            unfold _teams_for_round
            rw [if_neg hlin, if_neg hodd]
          rw [if_neg hodd]
          have hj' : base_order.length - 1 - j < base_order.length := by omega
          have hlook := order_lookup_order_rows base_order
            (base_order.length - 1 - j) hj'
          have hposeq : base_order.length - (j + 1) + 1 =
              1 + (base_order.length - 1 - j) := by omega
          rw [hposeq, hlook]
          congr 1
          have hget : (_teams_for_round base_order rn dt).get ⟨j, hj⟩ =
              base_order.reverse.get
                ⟨j, by rw [List.length_reverse]; exact hjlen⟩ := by
            apply List.get_of_eq hbase
          rw [hget]
          simp only [List.get_eq_getElem, List.getElem_reverse]

/-- Witness for C2: pick 3 of a two-team snake draft is round 2 pick 1,
owned by the team at reversed position 2. -/
theorem c2_clock_refines_grid_witness :
    DraftEngine.compute_round_pick 2 3 = .ok (2, 1) ∧
    ∃ pk ∈ build_picks [1, 2] 2 "SNAKE", pk.pick_number = 3 := by
  obtain ⟨h1, h2, _⟩ :=
    c2_clock_refines_grid [1, 2] 2 3 "SNAKE" (by decide) (by decide)
      (by decide)
  exact ⟨h1, h2⟩

/-! ### Lemmas about the runtime primitives -/

theorem eq_of_mem_of_num (l : List DraftPick)
    (hl : l.Pairwise (fun a b => a.pick_number ≠ b.pick_number))
    (p p' : DraftPick) (hp : p ∈ l) (hp' : p' ∈ l)
    (hnum : p.pick_number = p'.pick_number) : p = p' := by
  induction l with
  | nil => cases hp
  | cons a t ih =>
      rw [List.pairwise_cons] at hl
      rcases List.mem_cons.mp hp with hpa | hpt
      · rcases List.mem_cons.mp hp' with hpa' | hpt'
        · rw [hpa, hpa']
        · rw [hpa] at hnum
          exact absurd hnum (hl.1 p' hpt')
      · rcases List.mem_cons.mp hp' with hpa' | hpt'
        · rw [hpa'] at hnum
          exact absurd hnum.symm (hl.1 p hpt)
        · exact ih hl.2 hpt hpt'

theorem mem_save_pick (picks : List DraftPick) (k : Nat)
    (f : DraftPick → DraftPick) (p' : DraftPick)
    (h : p' ∈ save_pick picks k f) :
    ∃ p ∈ picks, p' = if p.pick_number == k then f p else p := by
  obtain ⟨p, hp, hp'⟩ := List.mem_map.mp h
  exact ⟨p, hp, hp'.symm⟩

theorem save_pick_mem (picks : List DraftPick) (k : Nat)
    (f : DraftPick → DraftPick) (p : DraftPick) (hp : p ∈ picks) :
    (if p.pick_number == k then f p else p) ∈ save_pick picks k f :=
  List.mem_map.mpr ⟨p, hp, rfl⟩

theorem save_pick_preserves_distinct (picks : List DraftPick) (k : Nat)
    (f : DraftPick → DraftPick)
    (hf : ∀ p, (f p).pick_number = p.pick_number)
    (h : picks.Pairwise (fun a b => a.pick_number ≠ b.pick_number)) :
    (save_pick picks k f).Pairwise (fun a b => a.pick_number ≠ b.pick_number) := by
  rw [save_pick, List.pairwise_map]
  refine h.imp_of_mem (fun {a b} _ _ hab => ?_)
  by_cases ha : a.pick_number == k <;> by_cases hb : b.pick_number == k <;>
    simp [ha, hb, hf] <;> exact hab

theorem find?_num_save_pick_ne (picks : List DraftPick) (k j : Nat)
    (f : DraftPick → DraftPick)
    (hf : ∀ p, (f p).pick_number = p.pick_number) (hkj : k ≠ j) :
    (save_pick picks k f).find? (fun p => p.pick_number == j) =
      picks.find? (fun p => p.pick_number == j) := by
  induction picks with
  | nil => rfl
  | cons a t ih =>
      simp only [save_pick, List.map_cons, List.find?_cons] at ih ⊢
      by_cases hak : a.pick_number = k
      · have h1 : (a.pick_number == k) = true := beq_iff_eq.mpr hak
        have h2 : ((f a).pick_number == j) = false := by
          rw [beq_eq_false_iff_ne, hf]
          omega
        have h3 : (a.pick_number == j) = false := by
          rw [beq_eq_false_iff_ne]
          omega
        rw [if_pos h1, h2, h3]
        simp only [Bool.false_eq_true, ite_false]
        exact ih
      · have h1 : (a.pick_number == k) = false := beq_eq_false_iff_ne.mpr hak
        rw [if_neg (by simp [h1])]
        by_cases haj : a.pick_number = j
        · have h4 : (a.pick_number == j) = true := beq_iff_eq.mpr haj
          rw [h4]
        · have h4 : (a.pick_number == j) = false := beq_eq_false_iff_ne.mpr haj
          rw [h4]
          simp only [Bool.false_eq_true, ite_false]
          exact ih

theorem countP_save_pick (picks : List DraftPick) (k : Nat)
    (f : DraftPick → DraftPick) (q : DraftPick → Bool) :
    (save_pick picks k f).countP q =
      picks.countP (fun p => p.pick_number == k && q (f p)) +
        picks.countP (fun p => !(p.pick_number == k) && q p) := by
  induction picks with
  | nil => rfl
  | cons a t ih =>
      simp only [save_pick, List.map_cons, List.countP_cons] at ih ⊢
      by_cases hak : a.pick_number = k
      · have h1 : (a.pick_number == k) = true := beq_iff_eq.mpr hak
        have hu : (if (a.pick_number == k) = true then f a else a) = f a :=
          if_pos h1
        rw [ih, hu]
        simp only [h1, Bool.true_and, Bool.not_true, Bool.false_and,
          Bool.false_eq_true, ite_false]
        omega
      · have h1 : (a.pick_number == k) = false := beq_eq_false_iff_ne.mpr hak
        have hu : (if (a.pick_number == k) = true then f a else a) = a :=
          if_neg (by simp [h1])
        rw [ih, hu]
        simp only [h1, Bool.false_and, Bool.not_false, Bool.true_and,
          Bool.false_eq_true, ite_false]
        omega

theorem countP_unique_num (picks : List DraftPick) (c : DraftPick)
    (hc : c ∈ picks)
    (hdist : picks.Pairwise (fun a b => a.pick_number ≠ b.pick_number))
    (X : DraftPick → Bool) :
    picks.countP (fun p => p.pick_number == c.pick_number && X p) =
      if X c then 1 else 0 := by
  induction picks with
  | nil => cases hc
  | cons a t ih =>
      rw [List.pairwise_cons] at hdist
      rcases List.mem_cons.mp hc with rfl | hc
      · rw [List.countP_cons]
        have hzero : t.countP (fun p => p.pick_number == c.pick_number && X p)
            = 0 := by
          rw [List.countP_eq_zero]
          intro b hb
          simp only [Bool.and_eq_true, beq_iff_eq, not_and]
          intro hnum
          exact absurd hnum.symm (hdist.1 b hb)
        rw [hzero]
        simp
      · rw [List.countP_cons]
        have hane : (a.pick_number == c.pick_number && X a) = false := by
          simp only [Bool.and_eq_false_iff, beq_eq_false_iff_ne, ne_eq]
          left
          exact hdist.1 c hc
        rw [hane, ih hc hdist.2]
        simp

theorem countP_split_at (picks : List DraftPick) (c : DraftPick)
    (hc : c ∈ picks)
    (hdist : picks.Pairwise (fun a b => a.pick_number ≠ b.pick_number))
    (q : DraftPick → Bool) :
    picks.countP q =
      picks.countP (fun p => !(p.pick_number == c.pick_number) && q p) +
        (if q c then 1 else 0) := by
  induction picks with
  | nil => cases hc
  | cons a t ih =>
      rw [List.pairwise_cons] at hdist
      rcases List.mem_cons.mp hc with rfl | hc
      · have heq : t.countP (fun p => !(p.pick_number == c.pick_number) && q p)
            = t.countP q := by
          apply List.countP_congr
          intro b hb
          have : (b.pick_number == c.pick_number) = false := by
            simp only [beq_eq_false_iff_ne, ne_eq]
            exact fun h => (hdist.1 b hb) h.symm
          simp [this]
        rw [List.countP_cons, List.countP_cons, heq]
        simp
      · have hane : (a.pick_number == c.pick_number) = false := by
          simp only [beq_eq_false_iff_ne, ne_eq]
          exact hdist.1 c hc
        rw [List.countP_cons, List.countP_cons, ih hc hdist.2, hane]
        simp only [Bool.not_false, Bool.true_and]
        omega

theorem find?_eq_some_of_unique (l : List DraftPick) (q : DraftPick → Bool)
    (x : DraftPick) (hx : x ∈ l) (hqx : q x = true)
    (huniq : ∀ y ∈ l, q y = true → y = x) : l.find? q = some x := by
  induction l with
  | nil => cases hx
  | cons a t ih =>
      by_cases hqa : q a
      · rw [List.find?_cons_of_pos _ hqa]
        rw [huniq a (List.mem_cons_self a t) hqa]
      · rw [List.find?_cons_of_neg _ hqa]
        rcases List.mem_cons.mp hx with rfl | hx
        · exact absurd hqx hqa
        · exact ih hx (fun y hy => huniq y (List.mem_cons_of_mem a hy))

theorem mem_roster_get_or_create (r : List (Nat × Nat)) (t p : Nat) :
    (t, p) ∈ roster_get_or_create r t p := by
  unfold roster_get_or_create
  by_cases h : r.contains (t, p)
  · rw [if_pos h]
    exact List.elem_iff.mp h
  · rw [if_neg h]
    exact List.mem_append.mpr (Or.inr (List.mem_singleton.mpr rfl))

theorem roster_get_or_create_idem (r : List (Nat × Nat)) (t p : Nat)
    (h : (t, p) ∈ r) : roster_get_or_create r t p = r := by
  unfold roster_get_or_create
  rw [if_pos (List.elem_iff.mpr h)]

@[simp] theorem _set_on_clock_pick_number (p : DraftPick) (now : Nat) :
    (_set_on_clock p now).pick_number = p.pick_number := rfl

@[simp] theorem _set_on_clock_player (p : DraftPick) (now : Nat) :
    (_set_on_clock p now).player = p.player := rfl

@[simp] theorem _set_on_clock_status (p : DraftPick) (now : Nat) :
    (_set_on_clock p now).status = PickStatus.onClock := rfl

@[simp] theorem _set_on_clock_started_at (p : DraftPick) (now : Nat) :
    (_set_on_clock p now).started_at = some now := rfl

/-- `advance_to_next_pick` either completes the draft (when
`current_pick + 1` exceeds `rounds * teamCount`) or moves the counter to
`current_pick + 1` and stamps the pick with that number `ON_CLOCK`. -/
theorem advance_cases (s : EngineState) (now : Nat) (s' : EngineState)
    (r : Option DraftPick)
    (h : advance_to_next_pick s now = .ok (s', r)) :
    (s.draft.current_pick + 1 > s.draft.rounds * s.teams.length ∧
      s' = { s with draft := { s.draft with
                                 is_completed := true
                                 is_active := false
                                 completed_at := some now } } ∧
      r = none) ∨
    (s.draft.current_pick + 1 ≤ s.draft.rounds * s.teams.length ∧
      ∃ np, s.picks.find?
          (fun p => p.pick_number == s.draft.current_pick + 1) = some np ∧
        s' = { s with
                 draft := { s.draft with
                              current_pick := s.draft.current_pick + 1
                              current_pick_started_at := some now }
                 picks := save_pick s.picks (s.draft.current_pick + 1)
                   (fun p => _set_on_clock p now) } ∧
        r = some (_set_on_clock np now)) := by
  unfold advance_to_next_pick at h
  by_cases hgt : s.draft.current_pick + 1 > s.draft.rounds * s.teams.length
  · rw [if_pos hgt] at h
    left
    simp only [Except.ok.injEq, Prod.mk.injEq] at h
    exact ⟨hgt, h.1.symm, h.2.symm⟩
  · rw [if_neg hgt] at h
    right
    refine ⟨by omega, ?_⟩
    cases hfind : s.picks.find?
        (fun p => p.pick_number == s.draft.current_pick + 1) with
    | none => rw [hfind] at h; cases h
    | some np =>
        rw [hfind] at h
        simp only [Except.ok.injEq, Prod.mk.injEq] at h
        exact ⟨np, rfl, h.1.symm, h.2.symm⟩

@[simp] theorem auto_mark_pick_number (p : DraftPick) (now : Nat) :
    (auto_mark now p).pick_number = p.pick_number := rfl

@[simp] theorem auto_mark_status (p : DraftPick) (now : Nat) :
    (auto_mark now p).status = PickStatus.auto := rfl

@[simp] theorem auto_assign_pick_number (p : DraftPick) (pl : Player)
    (now : Nat) : (auto_assign pl now p).pick_number = p.pick_number := rfl

@[simp] theorem auto_assign_status (p : DraftPick) (pl : Player) (now : Nat) :
    (auto_assign pl now p).status = PickStatus.auto := rfl

@[simp] theorem resolve_pick_pick_number (p : DraftPick)
    (player_id now : Nat) :
    (resolve_pick player_id now p).pick_number = p.pick_number := rfl

/-- After the current row (the only `ON_CLOCK` row, numbered
`current_pick`) has been resolved by a pick-number-preserving,
non-`ON_CLOCK` mutation `f`, `advance_to_next_pick` moves to
`current_pick + 1`, stamps that pick `ON_CLOCK` with a fresh clock
start, and leaves it as the unique `ON_CLOCK` row. -/
theorem advance_after_resolve (s R : EngineState) (now : Nat)
    (c np : DraftPick) (f : DraftPick → DraftPick)
    (hf_num : ∀ p, (f p).pick_number = p.pick_number)
    (hf_status : ∀ p, (f p).status = PickStatus.auto ∨
      (f p).status = PickStatus.made)
    (hRp : R.picks = save_pick s.picks c.pick_number f)
    (hRd : R.draft = s.draft) (hRt : R.teams = s.teams)
    (hdist : distinct_pick_numbers s)
    (honly : ∀ p ∈ s.picks, p.status = PickStatus.onClock →
      p.pick_number = c.pick_number)
    (hcur : c.pick_number = s.draft.current_pick)
    (hle : s.draft.current_pick + 1 ≤ s.draft.rounds * s.teams.length)
    (hfind : s.picks.find?
      (fun p => p.pick_number == s.draft.current_pick + 1) = some np) :
    ∃ s1, advance_to_next_pick R now = .ok (s1, some (_set_on_clock np now)) ∧
      get_current_pick s1 = some (_set_on_clock np now) ∧
      s1.draft.current_pick = s.draft.current_pick + 1 ∧
      s1.draft.current_pick_started_at = some now ∧
      s1.draft.is_active = s.draft.is_active ∧
      s1.draft.is_completed = s.draft.is_completed ∧
      s1.roster = R.roster ∧
      (∀ pk ∈ s1.picks, pk.pick_number = c.pick_number →
        ∃ p ∈ s.picks, p.pick_number = c.pick_number ∧ pk = f p) := by
  have hnp_num : np.pick_number = s.draft.current_pick + 1 := by
    have := List.find?_some hfind
    simpa using this
  have hne : c.pick_number ≠ s.draft.current_pick + 1 := by omega
  have hfindR : R.picks.find?
      (fun p => p.pick_number == R.draft.current_pick + 1) = some np := by
    rw [hRp, hRd, find?_num_save_pick_ne s.picks c.pick_number
      (s.draft.current_pick + 1) f hf_num hne]
    exact hfind
  have hnotgt : ¬ (R.draft.current_pick + 1 >
      R.draft.rounds * R.teams.length) := by
    rw [hRd, hRt]
    omega
  have hadv : advance_to_next_pick R now =
      .ok ({ R with
               draft := { R.draft with
                            current_pick := R.draft.current_pick + 1
                            current_pick_started_at := some now }
               picks := save_pick R.picks (R.draft.current_pick + 1)
                 (fun p => _set_on_clock p now) },
           some (_set_on_clock np now)) := by
    unfold advance_to_next_pick
    rw [if_neg hnotgt, hfindR]
  refine ⟨_, hadv, ?_, ?_, ?_, ?_, ?_, ?_, ?_⟩
  · show (save_pick R.picks (R.draft.current_pick + 1)
      (fun p => _set_on_clock p now)).find?
        (fun p => p.status == PickStatus.onClock) =
      some (_set_on_clock np now)
    apply find?_eq_some_of_unique
    · have hnpR : np ∈ R.picks := by
        rw [hRp]
        have := save_pick_mem s.picks c.pick_number f np
          (List.mem_of_find?_eq_some hfind)
        rwa [if_neg (by simp; omega)] at this
      have := save_pick_mem R.picks (R.draft.current_pick + 1)
        (fun p => _set_on_clock p now) np hnpR
      rwa [if_pos (by rw [hRd]; simp [hnp_num])] at this
    · simp
    · intro y hy hyq
      obtain ⟨rp, hrp, hye⟩ := mem_save_pick _ _ _ _ hy
      by_cases hrpn : rp.pick_number = R.draft.current_pick + 1
      · rw [if_pos (beq_iff_eq.mpr hrpn)] at hye
        obtain ⟨p, hp, hpe⟩ := by rw [hRp] at hrp; exact mem_save_pick _ _ _ _ hrp
        by_cases hpc : p.pick_number = c.pick_number
        · rw [if_pos (beq_iff_eq.mpr hpc)] at hpe
          rw [hpe, hf_num] at hrpn
          rw [hRd] at hrpn
          omega
        · rw [if_neg (by simp [hpc])] at hpe
          have hpnp : p = np := by
            apply eq_of_mem_of_num s.picks hdist p np hp
              (List.mem_of_find?_eq_some hfind)
            rw [← hpe, hrpn, hRd, hnp_num]
          rw [hye, hpe, hpnp]
      · rw [if_neg (by simp [hrpn])] at hye
        obtain ⟨p, hp, hpe⟩ := by rw [hRp] at hrp; exact mem_save_pick _ _ _ _ hrp
        by_cases hpc : p.pick_number = c.pick_number
        · rw [if_pos (beq_iff_eq.mpr hpc)] at hpe
          rw [hye, hpe] at hyq
          rcases hf_status p with hst | hst <;> simp [hst] at hyq
        · rw [if_neg (by simp [hpc])] at hpe
          rw [hye, hpe] at hyq
          have : p.status = PickStatus.onClock := by simpa using hyq
          exact absurd (honly p hp this) hpc
  · rw [hRd]
  · rfl
  · rw [hRd]
  · rw [hRd]
  · rfl
  · intro pk hpk hnum
    obtain ⟨rp, hrp, hpe⟩ := mem_save_pick _ _ _ _ hpk
    by_cases hrpn : rp.pick_number = R.draft.current_pick + 1
    · rw [if_pos (beq_iff_eq.mpr hrpn)] at hpe
      rw [hpe, _set_on_clock_pick_number] at hnum
      rw [hRd] at hrpn
      omega
    · rw [if_neg (by simp [hrpn])] at hpe
      obtain ⟨p, hp, hpe2⟩ := by rw [hRp] at hrp; exact mem_save_pick _ _ _ _ hrp
      by_cases hpc : p.pick_number = c.pick_number
      · rw [if_pos (beq_iff_eq.mpr hpc)] at hpe2
        exact ⟨p, hp, hpc, by rw [hpe, hpe2]⟩
      · rw [if_neg (by simp [hpc])] at hpe2
        rw [hpe, hpe2] at hnum
        exact absurd hnum hpc

/-- C4 (amended): `make_pick` requires an active, non-completed draft
and a pick `ON_CLOCK`; it fails with `PermissionError` when the acting
user is not the manager of the owning team, fails with the
"Player already drafted." `ValueError` when the player is already
resolved in any pick of this draft, and otherwise resolves the pick
(`MADE`, player set, timestamp), inserts the roster row idempotently,
advances the draft, and returns the pick now on the clock — or, when
the draft just completed, the just-resolved pick itself (never
null/`None`). -/
theorem c4_make_pick_contract (s : EngineState) (userId player_id now : Nat) :
    (s.draft.is_active = false ∨ s.draft.is_completed = true →
      make_pick s userId player_id now =
        .error (.valueError "Draft is not active.")) ∧
    (s.draft.is_active = true → s.draft.is_completed = false →
      get_current_pick s = none →
      make_pick s userId player_id now =
        .error (.valueError "No pick is currently on the clock.")) ∧
    (∀ c t, s.draft.is_active = true → s.draft.is_completed = false →
      get_current_pick s = some c →
      s.teams.find? (fun tm => tm.id == c.team) = some t →
      t.managerId ≠ userId →
      make_pick s userId player_id now =
        .error (.permissionError "Not your pick.")) ∧
    (∀ c t, s.draft.is_active = true → s.draft.is_completed = false →
      get_current_pick s = some c →
      s.teams.find? (fun tm => tm.id == c.team) = some t →
      t.managerId = userId →
      (∃ p ∈ s.picks, p.player = some player_id) →
      make_pick s userId player_id now =
        .error (.valueError "Player already drafted.")) ∧
    (∀ c t pl, s.draft.is_active = true → s.draft.is_completed = false →
      get_current_pick s = some c →
      s.teams.find? (fun tm => tm.id == c.team) = some t →
      t.managerId = userId →
      (¬ ∃ p ∈ s.picks, p.player = some player_id) →
      s.players.find? (fun q => q.id == player_id) = some pl →
      c.pick_number = s.draft.current_pick →
      ∀ s' ret, make_pick s userId player_id now = .ok (s', ret) →
        (∀ pk ∈ s'.picks, pk.pick_number = c.pick_number →
          pk.player = some player_id ∧ pk.status = PickStatus.made ∧
            pk.made_at = some now) ∧
        (c.team, player_id) ∈ s'.roster ∧
        ((c.team, player_id) ∈ s.roster → s'.roster = s.roster) ∧
        (s'.draft.is_completed = false →
          s'.draft.current_pick = s.draft.current_pick + 1 ∧
          ret.status = PickStatus.onClock ∧
          ret.pick_number = s.draft.current_pick + 1 ∧
          ret.started_at = some now) ∧
        (s'.draft.is_completed = true →
          ret.pick_number = c.pick_number ∧ ret.status = PickStatus.made ∧
          ret.player = some player_id ∧ s'.draft.is_active = false)) := by
  refine ⟨?_, ?_, ?_, ?_, ?_⟩
  · intro hguard
    unfold make_pick
    rw [if_pos ?_]
    rcases hguard with h | h <;> simp [h]
  · intro hact hnc hnone
    have hg : (!s.draft.is_active || s.draft.is_completed) = false := by
      simp [hact, hnc]
    unfold make_pick
    simp only [hg, Bool.false_eq_true, ite_false, hnone]
  · intro c t hact hnc hc hteam hmgr
    have hg : (!s.draft.is_active || s.draft.is_completed) = false := by
      simp [hact, hnc]
    have hm : (t.managerId != userId) = true := by
      simp only [bne_iff_ne, ne_eq]
      exact hmgr
    unfold make_pick
    simp only [hg, Bool.false_eq_true, ite_false, hc, hteam, hm, ite_true]
  · intro c t hact hnc hc hteam hmgr hdup
    have hg : (!s.draft.is_active || s.draft.is_completed) = false := by
      simp [hact, hnc]
    have hm : (t.managerId != userId) = false := by
      simp [hmgr]
    obtain ⟨p, hp, hpl⟩ := hdup
    have hany : (s.picks.any fun p => p.player == some player_id) = true := by
      rw [List.any_eq_true]
      exact ⟨p, hp, by simp [hpl]⟩
    unfold make_pick
    simp only [hg, Bool.false_eq_true, ite_false, hc, hteam, hm, hany,
      ite_true]
  · intro c t pl hact hnc hc hteam hmgr hnodup hpl hcur s' ret hok
    have hg : (!s.draft.is_active || s.draft.is_completed) = false := by
      simp [hact, hnc]
    have hm : (t.managerId != userId) = false := by
      simp [hmgr]
    have hany : (s.picks.any fun p => p.player == some player_id) = false := by
      rw [Bool.eq_false_iff, ne_eq, List.any_eq_true]
      intro ⟨p, hp, hb⟩
      exact hnodup ⟨p, hp, by simpa using hb⟩
    unfold make_pick at hok
    simp only [hg, Bool.false_eq_true, ite_false, hc, hteam, hm, hany,
      hpl] at hok
    have hs2pick : ∀ pk ∈ (made_state s c player_id now).picks,
        pk.pick_number = c.pick_number →
        pk.player = some player_id ∧ pk.status = PickStatus.made ∧
          pk.made_at = some now := by
      intro pk hpk hnum
      obtain ⟨p, hp, hpe⟩ := mem_save_pick _ _ _ _ hpk
      by_cases hpc : p.pick_number = c.pick_number
      · rw [if_pos (beq_iff_eq.mpr hpc)] at hpe
        rw [hpe]
        exact ⟨rfl, rfl, rfl⟩
      · rw [if_neg (by simp [hpc])] at hpe
        rw [hpe] at hnum
        exact absurd hnum hpc
    cases hadv : advance_to_next_pick (made_state s c player_id now) now with
    | error e => rw [hadv] at hok; cases hok
    | ok pr =>
        obtain ⟨s3, nxt⟩ := pr
        rw [hadv] at hok
        simp only [Except.ok.injEq, Prod.mk.injEq] at hok
        obtain ⟨rfl, hret⟩ := hok
        rcases advance_cases _ now s3 nxt hadv with
          ⟨hgt, hs3, rfl⟩ | ⟨hle, np, hfind, hs3, rfl⟩
        · refine ⟨?_, ?_, ?_, ?_, ?_⟩
          · intro pk hpk hnum
            rw [hs3] at hpk
            exact hs2pick pk hpk hnum
          · rw [hs3]
            exact mem_roster_get_or_create _ _ _
          · intro hmem
            rw [hs3]
            exact roster_get_or_create_idem _ _ _ hmem
          · intro hfalse
            rw [hs3] at hfalse
            simp at hfalse
          · intro _
            rw [← hret]
            exact ⟨rfl, rfl, rfl, by rw [hs3]⟩
        · refine ⟨?_, ?_, ?_, ?_, ?_⟩
          · intro pk hpk hnum
            rw [hs3] at hpk
            obtain ⟨p, hp, hpe⟩ := mem_save_pick _ _ _ _ hpk
            by_cases hpn : p.pick_number =
                (made_state s c player_id now).draft.current_pick + 1
            · rw [if_pos (beq_iff_eq.mpr hpn)] at hpe
              rw [hpe, _set_on_clock_pick_number] at hnum
              have hsame : (made_state s c player_id now).draft.current_pick =
                  s.draft.current_pick := rfl
              omega
            · rw [if_neg (by simp [hpn])] at hpe
              rw [hpe] at hnum ⊢
              exact hs2pick p hp hnum
          · rw [hs3]
            exact mem_roster_get_or_create _ _ _
          · intro hmem
            rw [hs3]
            exact roster_get_or_create_idem _ _ _ hmem
          · intro _
            have hnp : np.pick_number =
                (made_state s c player_id now).draft.current_pick + 1 := by
              have := List.find?_some hfind
              simpa using this
            rw [hs3, ← hret]
            refine ⟨rfl, rfl, ?_, rfl⟩
            simp only [Option.getD_some, _set_on_clock_pick_number, hnp]
            rfl
          · intro htrue
            rw [hs3] at htrue
            simp only at htrue
            have : s.draft.is_completed = true := htrue
            rw [this] at hnc
            cases hnc

/-- C4 counterexample: on the final pick of the concrete two-team
draft, `make_pick` succeeds, the draft completes, and the call returns
the just-resolved pick (`status = MADE`), not null — the Python
`advance_to_next_pick(...) or current` yields `current` when advance
returns `None`. -/
theorem c4_counterexample :
    make_pick demo_last_on_clock 10 104 104 =
      .ok (demo_completed,
        { team := 1, player := some 104, round_number := 2, pick_number := 4,
          status := PickStatus.made, started_at := some 103,
          made_at := some 104 }) ∧
    demo_completed.draft.is_completed = true ∧
    demo_completed.draft.is_active = false := by
  refine ⟨by rfl, by decide, by decide⟩

/-- Witness for C4: the permission and conflict clauses evaluated on the
concrete scenario. -/
theorem c4_make_pick_contract_witness :
    make_pick demo_started 20 102 101 =
      .error (.permissionError "Not your pick.") ∧
    make_pick demo_mid1 20 102 102 =
      .error (.valueError "Player already drafted.") := by
  constructor
  · exact (c4_make_pick_contract demo_started 20 102 101).2.2.1
      { team := 1, player := none, round_number := 1, pick_number := 1,
        status := PickStatus.onClock, started_at := some 100, made_at := none }
      { id := 1, name := "A", managerId := 10 }
      (by decide) (by decide) (by decide) (by decide) (by decide)
  · exact (c4_make_pick_contract demo_mid1 20 102 102).2.2.2.1
      { team := 2, player := none, round_number := 1, pick_number := 2,
        status := PickStatus.onClock, started_at := some 101, made_at := none }
      { id := 2, name := "B", managerId := 20 }
      (by decide) (by decide) (by decide) (by decide) (by decide) (by decide)

/-- C6 (amended): on an active, non-completed draft with no `ON_CLOCK`
row, `tick_draft`'s safety repair is exactly an
`advance_to_next_pick`: it either completes the draft (picks untouched)
or puts the pick numbered `currentPickNumber + 1` on the clock — the
pick whose global number equals the entry `currentPickNumber` is
skipped, never repaired back to `ON_CLOCK`. -/
theorem c6_tick_repair_advances (s : EngineState) (now : Nat)
    (hact : s.draft.is_active = true) (hnc : s.draft.is_completed = false)
    (hnone : get_current_pick s = none) :
    tick_draft s now = advance_to_next_pick s now ∧
    ∀ s' r, tick_draft s now = .ok (s', r) →
      (s.draft.current_pick + 1 > s.draft.rounds * s.teams.length →
        s'.draft.is_completed = true ∧ s'.picks = s.picks) ∧
      (s.draft.current_pick + 1 ≤ s.draft.rounds * s.teams.length →
        s'.draft.current_pick = s.draft.current_pick + 1 ∧
        (∀ pk ∈ s'.picks, pk.pick_number = s.draft.current_pick + 1 →
          pk.status = PickStatus.onClock ∧ pk.started_at = some now) ∧
        (∀ pk ∈ s'.picks, pk.pick_number = s.draft.current_pick →
          pk.status ≠ PickStatus.onClock)) := by
  have hg : (!s.draft.is_active || s.draft.is_completed) = false := by
    simp [hact, hnc]
  have heq : tick_draft s now = advance_to_next_pick s now := by
    unfold tick_draft
    simp only [hg, Bool.false_eq_true, ite_false, hnone]
  refine ⟨heq, ?_⟩
  intro s' r h
  rw [heq] at h
  have hno : ∀ p ∈ s.picks, p.status ≠ PickStatus.onClock := by
    intro p hp
    have := List.find?_eq_none.mp hnone p hp
    simpa using this
  rcases advance_cases s now s' r h with
    ⟨hgt, hs', rfl⟩ | ⟨hle, np, hfind, hs', rfl⟩
  · constructor
    · intro _
      rw [hs']
      exact ⟨rfl, rfl⟩
    · intro hle
      omega
  · constructor
    · intro hgt
      omega
    · intro _
      refine ⟨by rw [hs'], ?_, ?_⟩
      · intro pk hpk hnum
        rw [hs'] at hpk
        obtain ⟨p, hp, hpe⟩ := mem_save_pick _ _ _ _ hpk
        by_cases hpn : p.pick_number = s.draft.current_pick + 1
        · rw [if_pos (beq_iff_eq.mpr hpn)] at hpe
          rw [hpe]
          exact ⟨rfl, rfl⟩
        · rw [if_neg (by simp [hpn])] at hpe
          rw [hpe] at hnum
          exact absurd hnum hpn
      · intro pk hpk hnum
        rw [hs'] at hpk
        obtain ⟨p, hp, hpe⟩ := mem_save_pick _ _ _ _ hpk
        by_cases hpn : p.pick_number = s.draft.current_pick + 1
        · rw [if_pos (beq_iff_eq.mpr hpn)] at hpe
          rw [hpe, _set_on_clock_pick_number] at hnum
          omega
        · rw [if_neg (by simp [hpn])] at hpe
          rw [hpe]
          exact hno p hp

/-- Witness for C6 (amended): the repair on the concrete drifted state
is an advance. -/
theorem c6_tick_repair_advances_witness :
    tick_draft demo_drifted 101 = advance_to_next_pick demo_drifted 101 :=
  (c6_tick_repair_advances demo_drifted 101 (by decide) (by decide)
    (by decide)).1

/-- C8: pick expiry is evaluated only when `tick_draft` runs, by
comparing the elapsed time since the draft's clock start against
`time_per_pick`.  A tick at or before `t0 + time_per_pick` changes
nothing and returns the current pick; a later tick auto-resolves the
current pick and puts the pick numbered `currentPickNumber + 1`
`ON_CLOCK` with its clock start equal to the tick's own invocation time
(both on the row and on the draft), not the theoretical expiry
instant. -/
theorem c8_expiry_only_at_tick (s : EngineState) (now t0 : Nat)
    (c : DraftPick)
    (hact : s.draft.is_active = true) (hnc : s.draft.is_completed = false)
    (hc : get_current_pick s = some c)
    (honly : ∀ p ∈ s.picks, p.status = PickStatus.onClock →
      p.pick_number = c.pick_number)
    (hdist : distinct_pick_numbers s)
    (hcur : c.pick_number = s.draft.current_pick)
    (ht0 : s.draft.current_pick_started_at = some t0) :
    (now ≤ t0 + s.draft.time_per_pick →
      tick_draft s now = .ok (s, some c)) ∧
    (now > t0 + s.draft.time_per_pick →
      s.draft.current_pick + 1 ≤ s.draft.rounds * s.teams.length →
      ∀ np, s.picks.find?
          (fun p => p.pick_number == s.draft.current_pick + 1) = some np →
        ∃ s', tick_draft s now = .ok (s', some (_set_on_clock np now)) ∧
          (_set_on_clock np now).started_at = some now ∧
          (_set_on_clock np now).pick_number = s.draft.current_pick + 1 ∧
          (_set_on_clock np now).status = PickStatus.onClock ∧
          s'.draft.current_pick_started_at = some now ∧
          s'.draft.current_pick = s.draft.current_pick + 1 ∧
          (∀ pk ∈ s'.picks, pk.pick_number = c.pick_number →
            pk.status = PickStatus.auto ∧ pk.made_at = some now)) := by
  have hg : (!s.draft.is_active || s.draft.is_completed) = false := by
    simp [hact, hnc]
  constructor
  · intro hle
    have hexp : is_pick_expired s now = false := by
      unfold is_pick_expired
      rw [ht0]
      simp only [decide_eq_false_iff_not, not_lt]
      omega
    unfold tick_draft
    simp only [hg, Bool.false_eq_true, ite_false, hc, hexp]
  · intro hgt htotal np hfind
    have hexp : is_pick_expired s now = true := by
      unfold is_pick_expired
      rw [ht0]
      simp only [decide_eq_true_eq]
      omega
    have hnp_num : np.pick_number = s.draft.current_pick + 1 := by
      have := List.find?_some hfind
      simpa using this
    unfold tick_draft
    simp only [hg, Bool.false_eq_true, ite_false, hc, hexp, ite_true]
    unfold autopick_current
    simp only [hc]
    cases hbest : _best_available_player s (_infer_team_need s c.team) with
    | none =>
        obtain ⟨s1, hadv, hcur1, h1, h2, h3, h4, _, h6⟩ :=
          advance_after_resolve s (auto_marked_state s c now) now c np
            (auto_mark now) (fun p => rfl) (fun p => Or.inl rfl) rfl rfl rfl
            hdist honly hcur htotal hfind
        simp only [hadv, hcur1]
        refine ⟨s1, rfl, rfl, by simp [hnp_num], rfl, h2, h1, ?_⟩
        intro pk hpk hnum
        obtain ⟨p, _, _, rfl⟩ := h6 pk hpk hnum
        exact ⟨rfl, rfl⟩
    | some pl =>
        obtain ⟨s1, hadv, hcur1, h1, h2, h3, h4, _, h6⟩ :=
          advance_after_resolve s (auto_assigned_state s c pl now) now c np
            (auto_assign pl now) (fun p => rfl) (fun p => Or.inl rfl) rfl rfl
            rfl hdist honly hcur htotal hfind
        simp only [hadv, hcur1]
        refine ⟨s1, rfl, rfl, by simp [hnp_num], rfl, h2, h1, ?_⟩
        intro pk hpk hnum
        obtain ⟨p, _, _, rfl⟩ := h6 pk hpk hnum
        exact ⟨rfl, rfl⟩

/-- Witness for C8: on the started concrete draft (`time_per_pick = 5`,
clock start 100), a tick at 105 changes nothing and a tick at 106
auto-resolves pick 1 and puts pick 2 on the clock at 106. -/
theorem c8_expiry_only_at_tick_witness :
    tick_draft demo_started 105 =
      .ok (demo_started,
        some { team := 1, player := none, round_number := 1, pick_number := 1,
               status := PickStatus.onClock, started_at := some 100,
               made_at := none }) ∧
    ∃ s', tick_draft demo_started 106 =
      .ok (s', some { team := 2, player := none, round_number := 1,
                      pick_number := 2, status := PickStatus.onClock,
                      started_at := some 106, made_at := none }) ∧
      s'.draft.current_pick_started_at = some 106 := by
  have hcep : get_current_pick demo_started =
      some { team := 1, player := none, round_number := 1, pick_number := 1,
             status := PickStatus.onClock, started_at := some 100,
             made_at := none } := by decide
  have h := c8_expiry_only_at_tick demo_started 105 100
    { team := 1, player := none, round_number := 1, pick_number := 1,
      status := PickStatus.onClock, started_at := some 100, made_at := none }
    (by decide) (by decide) hcep (by decide)
    (by unfold distinct_pick_numbers; decide) (by decide) (by decide)
  have h' := c8_expiry_only_at_tick demo_started 106 100
    { team := 1, player := none, round_number := 1, pick_number := 1,
      status := PickStatus.onClock, started_at := some 100, made_at := none }
    (by decide) (by decide) hcep (by decide)
    (by unfold distinct_pick_numbers; decide) (by decide) (by decide)
  refine ⟨h.1 (by decide), ?_⟩
  obtain ⟨s', htick, _, _, _, hcpsa, _, _⟩ := h'.2 (by decide) (by decide)
    { team := 2, player := none, round_number := 1, pick_number := 2,
      status := PickStatus.upcoming, started_at := none, made_at := none }
    (by decide)
  exact ⟨s', htick, hcpsa⟩

/-- C6 counterexample: in the concrete drifted state (active draft on
pick 1, no row `ON_CLOCK`), a `tick_draft` leaves pick 1 `UPCOMING`
forever and puts pick 2 on the clock — the pick numbered
`currentPickNumber` at entry is not the one repaired to `ON_CLOCK`. -/
theorem c6_counterexample :
    demo_drifted.draft.is_active = true ∧
    demo_drifted.draft.is_completed = false ∧
    get_current_pick demo_drifted = none ∧
    demo_drifted.draft.current_pick = 1 ∧
    tick_draft demo_drifted 101 =
      .ok (demo_drifted_ticked,
        some { team := 2, player := none, round_number := 1, pick_number := 2,
               status := PickStatus.onClock, started_at := some 101,
               made_at := none }) ∧
    (demo_drifted_ticked.picks.find? (fun p => p.pick_number == 1)).map
        DraftPick.status = some PickStatus.upcoming ∧
    (demo_drifted_ticked.picks.find? (fun p => p.pick_number == 2)).map
        DraftPick.status = some PickStatus.onClock := by
  refine ⟨by decide, by decide, by decide, by decide, by rfl, by decide,
    by decide⟩

/-! ### The auto-picker's selection order -/

theorem rank_before_irrefl (a : Player) : rank_before a a = false := by
  unfold rank_before
  simp

theorem rank_before_asymm (a b : Player) (h : rank_before a b = true) :
    rank_before b a = false := by
  unfold rank_before at *
  simp only [Bool.or_eq_true, decide_eq_true_eq, Bool.and_eq_true,
    beq_iff_eq] at h
  simp only [Bool.or_eq_false_iff, decide_eq_false_iff_not, not_lt,
    Bool.and_eq_false_iff, beq_eq_false_iff_ne, ne_eq]
  rcases h with h | ⟨heq, hlt⟩
  · exact ⟨le_of_lt h, Or.inl (by omega)⟩
  · exact ⟨le_of_eq heq.symm, Or.inr (by simp [not_lt, le_of_lt hlt])⟩

theorem rank_before_neg_trans (a b c : Player)
    (h1 : rank_before a b = false) (h2 : rank_before b c = false) :
    rank_before a c = false := by
  unfold rank_before at *
  simp only [Bool.or_eq_false_iff, decide_eq_false_iff_not, not_lt,
    Bool.and_eq_false_iff, beq_eq_false_iff_ne, ne_eq,
    decide_eq_false_iff_not] at *
  obtain ⟨hle1, hn1⟩ := h1
  obtain ⟨hle2, hn2⟩ := h2
  refine ⟨le_trans hle1 hle2, ?_⟩
  by_cases heq : a.fantasy_score = c.fantasy_score
  · right
    have heab : a.fantasy_score = b.fantasy_score := by omega
    have hebc : b.fantasy_score = c.fantasy_score := by omega
    have hna : b.full_name ≤ a.full_name := by
      rcases hn1 with h | h
      · exact absurd heab h
      · exact h
    have hnb : c.full_name ≤ b.full_name := by
      rcases hn2 with h | h
      · exact absurd hebc h
      · exact h
    exact le_trans hnb hna
  · exact Or.inl heq

theorem first_by_rank_mem (l : List Player) (p : Player)
    (h : first_by_rank l = some p) : p ∈ l := by
  induction l with
  | nil => cases h
  | cons a t ih =>
      unfold first_by_rank at h
      cases ht : first_by_rank t with
      | none =>
          simp only [ht] at h
          have hap : a = p := Option.some.inj h
          subst hap
          exact List.mem_cons_self _ _
      | some q =>
          simp only [ht] at h
          by_cases hr : rank_before q a = true
          · rw [if_pos hr] at h
            have hap : q = p := Option.some.inj h
            subst hap
            exact List.mem_cons_of_mem a (ih ht)
          · rw [if_neg hr] at h
            have hap : a = p := Option.some.inj h
            subst hap
            exact List.mem_cons_self _ _

theorem first_by_rank_eq_none (l : List Player) :
    first_by_rank l = none ↔ l = [] := by
  cases l with
  | nil => simp [first_by_rank]
  | cons a t =>
      unfold first_by_rank
      cases ht : first_by_rank t with
      | none => simp
      | some q => by_cases hr : rank_before q a = true <;> simp [hr]

theorem first_by_rank_optimal (l : List Player) :
    ∀ p, first_by_rank l = some p → ∀ q ∈ l, rank_before q p = false := by
  induction l with
  | nil => intro p h; cases h
  | cons a t ih =>
      intro p h q hq
      unfold first_by_rank at h
      cases ht : first_by_rank t with
      | none =>
          simp only [ht] at h
          have hap : a = p := Option.some.inj h
          have htnil : t = [] := (first_by_rank_eq_none t).mp ht
          rcases List.mem_cons.mp hq with hqa | hqt
          · rw [hqa, ← hap]
            exact rank_before_irrefl a
          · rw [htnil] at hqt
            cases hqt
      | some b =>
          simp only [ht] at h
          by_cases hr : rank_before b a = true
          · rw [if_pos hr] at h
            have hbp : b = p := Option.some.inj h
            rw [hbp] at ht hr
            rcases List.mem_cons.mp hq with hqa | hqt
            · rw [hqa]
              exact rank_before_asymm p a hr
            · exact ih p ht q hqt
          · rw [if_neg hr] at h
            have hap : a = p := Option.some.inj h
            rcases List.mem_cons.mp hq with hqa | hqt
            · rw [hqa, ← hap]
              exact rank_before_irrefl a
            · have hqb : rank_before q b = false := ih b ht q hqt
              have hbp : rank_before b p = false := by
                rw [← hap]
                simpa using hr
              exact rank_before_neg_trans q b p hqb hbp

/-- `_best_available_player`, fed the source's need inference, selects
from the preferred pool and falls back to the unrestricted pool. -/
theorem best_available_eq (s : EngineState) (teamId : Nat) :
    _best_available_player s (_infer_team_need s teamId) =
      match first_by_rank (preferred_pool s teamId) with
      | some pl => some pl
      | none => first_by_rank (available_pool s) := by
  unfold _best_available_player _infer_team_need preferred_pool
  by_cases hcount : goalie_count s teamId < 2
  · rw [if_pos hcount, if_pos hcount]
    rfl
  · rw [if_neg hcount, if_neg hcount]
    rfl

/-- After `autopick_current` has resolved the current row with the
mutation `f` and calls `advance_to_next_pick`, every row numbered like
the current one carries `f` applied to it, the roster is untouched by
the advance, and the draft either moved to the next pick or
completed. -/
theorem autopick_resolved_after_advance (s R : EngineState) (now : Nat)
    (c : DraftPick) (f : DraftPick → DraftPick)
    (hRp : R.picks = save_pick s.picks c.pick_number f)
    (hRd : R.draft = s.draft)
    (hdist : distinct_pick_numbers s)
    (hcmem : c ∈ s.picks)
    (hcur : c.pick_number = s.draft.current_pick) :
    ∀ s2 r, advance_to_next_pick R now = .ok (s2, r) →
      (∀ pk ∈ s2.picks, pk.pick_number = c.pick_number → pk = f c) ∧
      s2.roster = R.roster ∧
      (s2.draft.current_pick = s.draft.current_pick + 1 ∨
        s2.draft.is_completed = true) := by
  intro s2 r hadv
  have hRpick : ∀ pk ∈ R.picks, pk.pick_number = c.pick_number →
      pk = f c := by
    intro pk hpk hnum
    rw [hRp] at hpk
    obtain ⟨p, hp, hpe⟩ := mem_save_pick _ _ _ _ hpk
    by_cases hpc : p.pick_number = c.pick_number
    · rw [if_pos (beq_iff_eq.mpr hpc)] at hpe
      rw [hpe, eq_of_mem_of_num s.picks hdist p c hp hcmem hpc]
    · rw [if_neg (by simp [hpc])] at hpe
      rw [hpe] at hnum
      exact absurd hnum hpc
  rcases advance_cases R now s2 r hadv with
    ⟨hgt, hs2, rfl⟩ | ⟨hle, np, hfind, hs2, rfl⟩
  · refine ⟨?_, by rw [hs2], Or.inr (by rw [hs2])⟩
    intro pk hpk hnum
    rw [hs2] at hpk
    exact hRpick pk hpk hnum
  · refine ⟨?_, by rw [hs2], Or.inl (by rw [hs2, hRd])⟩
    intro pk hpk hnum
    rw [hs2] at hpk
    obtain ⟨p, hp, hpe⟩ := mem_save_pick _ _ _ _ hpk
    by_cases hpn : p.pick_number = R.draft.current_pick + 1
    · rw [if_pos (beq_iff_eq.mpr hpn)] at hpe
      rw [hpe, _set_on_clock_pick_number] at hnum
      rw [hRd] at hpn
      omega
    · rw [if_neg (by simp [hpn])] at hpe
      rw [hpe] at hnum ⊢
      exact hRpick p hp hnum

/-! ### Inversion of the engine operations -/

theorem create_ok_inv (s : EngineState) (config : DraftCreateConfig)
    (base_order : List Nat) (s' : EngineState)
    (h : create_or_rebuild_draft s config base_order = .ok s') :
    1 ≤ config.rounds ∧ 5 ≤ config.time_per_pick ∧ 2 ≤ s.teams.length ∧
    s' = { s with
             draft := { s.draft with
                          rounds := config.rounds
                          time_per_pick := config.time_per_pick
                          is_active := false
                          is_completed := false
                          current_pick := 1
                          started_at := none
                          completed_at := none
                          current_pick_started_at := none }
             order := order_rows base_order
             picks := build_picks base_order config.rounds
               s.draft.draft_type } := by
  unfold create_or_rebuild_draft at h
  by_cases h1 : config.rounds < 1
  · rw [if_pos h1] at h; cases h
  · rw [if_neg h1] at h
    by_cases h2 : config.time_per_pick < 5
    · rw [if_pos h2] at h; cases h
    · rw [if_neg h2] at h
      by_cases h3 : s.teams.length < 2
      · rw [if_pos h3] at h; cases h
      · rw [if_neg h3] at h
        exact ⟨by omega, by omega, by omega, (Except.ok.inj h).symm⟩

theorem start_ok_inv (s : EngineState) (now : Nat) (s' : EngineState)
    (p : DraftPick) (h : start_draft s now = .ok (s', p)) :
    s.draft.is_completed = false ∧
    ∃ first, s.picks.find? (fun q => q.pick_number == 1) = some first ∧
      s' = { s with
               draft := { s.draft with
                            is_active := true
                            started_at := some (s.draft.started_at.getD now)
                            current_pick := 1
                            current_pick_started_at := some now }
               picks := save_pick s.picks 1 (fun q => _set_on_clock q now) } ∧
      p = _set_on_clock first now := by
  unfold start_draft at h
  by_cases h1 : s.draft.is_completed = true
  · rw [if_pos h1] at h; cases h
  · rw [if_neg h1] at h
    by_cases h2 : s.picks.isEmpty = true
    · rw [if_pos h2] at h; cases h
    · rw [if_neg h2] at h
      cases hfind : s.picks.find? (fun q => q.pick_number == 1) with
      | none => rw [hfind] at h; cases h
      | some first =>
          rw [hfind] at h
          simp only [Except.ok.injEq, Prod.mk.injEq] at h
          exact ⟨by simpa using h1, first, rfl, h.1.symm, h.2.symm⟩

theorem make_pick_ok_inv (s : EngineState) (userId player_id now : Nat)
    (s' : EngineState) (ret : DraftPick)
    (h : make_pick s userId player_id now = .ok (s', ret)) :
    s.draft.is_active = true ∧ s.draft.is_completed = false ∧
    ∃ c, get_current_pick s = some c ∧
      (s.picks.any fun p => p.player == some player_id) = false ∧
      ∃ r, advance_to_next_pick (made_state s c player_id now) now =
        .ok (s', r) := by
  unfold make_pick at h
  by_cases hg : (!s.draft.is_active || s.draft.is_completed) = true
  · rw [if_pos hg] at h; cases h
  · rw [if_neg hg] at h
    have hga : s.draft.is_active = true ∧ s.draft.is_completed = false := by
      simp only [Bool.or_eq_true, Bool.not_eq_true', not_or] at hg
      constructor
      · by_cases ha : s.draft.is_active = true
        · exact ha
        · exact absurd (by simpa using ha) (by simpa using hg.1)
      · by_cases hb : s.draft.is_completed = false
        · exact hb
        · exact absurd (by simpa using hb) (by simpa using hg.2)
    refine ⟨hga.1, hga.2, ?_⟩
    cases hc : get_current_pick s with
    | none => simp only [hc] at h; cases h
    | some c =>
        simp only [hc] at h
        refine ⟨c, rfl, ?_⟩
        cases hteam : s.teams.find? (fun t => t.id == c.team) with
        | none => simp only [hteam] at h; cases h
        | some team =>
            simp only [hteam] at h
            by_cases hm : (team.managerId != userId) = true
            · rw [if_pos hm] at h; cases h
            · rw [if_neg hm] at h
              by_cases hany : (s.picks.any fun p =>
                  p.player == some player_id) = true
              · rw [if_pos hany] at h; cases h
              · rw [if_neg hany] at h
                refine ⟨by simpa using hany, ?_⟩
                cases hpl : s.players.find? (fun q => q.id == player_id) with
                | none => simp only [hpl] at h; cases h
                | some pl =>
                    simp only [hpl] at h
                    cases hadv : advance_to_next_pick
                        (made_state s c player_id now) now with
                    | error e => rw [hadv] at h; cases h
                    | ok pr =>
                        rw [hadv] at h
                        simp only [Except.ok.injEq, Prod.mk.injEq] at h
                        exact ⟨pr.2, by rw [← h.1]; try exact hadv⟩

theorem autopick_ok_inv (s : EngineState) (now : Nat) (s' : EngineState)
    (ret : DraftPick) (h : autopick_current s now = .ok (s', ret)) :
    ∃ c, get_current_pick s = some c ∧
      ((∃ pl, _best_available_player s (_infer_team_need s c.team) = some pl ∧
        ∃ r, advance_to_next_pick (auto_assigned_state s c pl now) now =
          .ok (s', r)) ∨
       (_best_available_player s (_infer_team_need s c.team) = none ∧
        ∃ r, advance_to_next_pick (auto_marked_state s c now) now =
          .ok (s', r))) := by
  unfold autopick_current at h
  cases hc : get_current_pick s with
  | none => simp only [hc] at h; cases h
  | some c =>
      simp only [hc] at h
      refine ⟨c, rfl, ?_⟩
      cases hbest : _best_available_player s (_infer_team_need s c.team) with
      | none =>
          simp only [hbest] at h
          cases hadv : advance_to_next_pick (auto_marked_state s c now) now with
          | error e => rw [hadv] at h; cases h
          | ok pr =>
              rw [hadv] at h
              simp only [Except.ok.injEq, Prod.mk.injEq] at h
              exact Or.inr ⟨rfl, pr.2, by rw [← h.1]; try exact hadv⟩
      | some pl =>
          simp only [hbest] at h
          cases hadv : advance_to_next_pick
              (auto_assigned_state s c pl now) now with
          | error e => rw [hadv] at h; cases h
          | ok pr =>
              rw [hadv] at h
              simp only [Except.ok.injEq, Prod.mk.injEq] at h
              exact Or.inl ⟨pl, rfl, pr.2, by rw [← h.1]; try exact hadv⟩

theorem tick_ok_inv (s : EngineState) (now : Nat) (s' : EngineState)
    (r : Option DraftPick) (h : tick_draft s now = .ok (s', r)) :
    ((s.draft.is_active = false ∨ s.draft.is_completed = true) ∧
      s' = s ∧ r = none) ∨
    (s.draft.is_active = true ∧ s.draft.is_completed = false ∧
      get_current_pick s = none ∧
      advance_to_next_pick s now = .ok (s', r)) ∨
    (∃ c, s.draft.is_active = true ∧ s.draft.is_completed = false ∧
      get_current_pick s = some c ∧ is_pick_expired s now = false ∧
      s' = s ∧ r = some c) ∨
    (∃ c s1 ret1, s.draft.is_active = true ∧ s.draft.is_completed = false ∧
      get_current_pick s = some c ∧ is_pick_expired s now = true ∧
      autopick_current s now = .ok (s1, ret1) ∧
      ((∃ p, get_current_pick s1 = some p ∧ s' = s1 ∧ r = some p) ∨
       (get_current_pick s1 = none ∧ s1.draft.is_completed = true ∧
         s' = s1 ∧ r = none) ∨
       (get_current_pick s1 = none ∧ s1.draft.is_completed = false ∧
         advance_to_next_pick s1 now = .ok (s', r)))) := by
  unfold tick_draft at h
  by_cases hg : (!s.draft.is_active || s.draft.is_completed) = true
  · rw [if_pos hg] at h
    simp only [Except.ok.injEq, Prod.mk.injEq] at h
    left
    refine ⟨?_, h.1.symm, h.2.symm⟩
    simp only [Bool.or_eq_true, Bool.not_eq_true'] at hg
    rcases hg with hg | hg
    · exact Or.inl hg
    · exact Or.inr hg
  · rw [if_neg hg] at h
    have hga : s.draft.is_active = true ∧ s.draft.is_completed = false := by
      simp only [Bool.or_eq_true, Bool.not_eq_true', not_or] at hg
      constructor
      · by_cases ha : s.draft.is_active = true
        · exact ha
        · exact absurd (by simpa using ha) (by simpa using hg.1)
      · by_cases hb : s.draft.is_completed = false
        · exact hb
        · exact absurd (by simpa using hb) (by simpa using hg.2)
    cases hc : get_current_pick s with
    | none =>
        simp only [hc] at h
        exact Or.inr (Or.inl ⟨hga.1, hga.2, rfl, h⟩)
    | some c =>
        simp only [hc] at h
        by_cases hexp : is_pick_expired s now = true
        · rw [if_pos hexp] at h
          cases hauto : autopick_current s now with
          | error e => rw [hauto] at h; cases h
          | ok pr =>
              obtain ⟨s1, ret1⟩ := pr
              rw [hauto] at h
              refine Or.inr (Or.inr (Or.inr
                ⟨c, s1, ret1, hga.1, hga.2, rfl, hexp, rfl, ?_⟩))
              cases hc1 : get_current_pick s1 with
              | some p =>
                  simp only [hc1, Except.ok.injEq, Prod.mk.injEq] at h
                  exact Or.inl ⟨p, rfl, h.1.symm, h.2.symm⟩
              | none =>
                  simp only [hc1] at h
                  by_cases hcomp : s1.draft.is_completed = true
                  · rw [if_pos hcomp] at h
                    simp only [Except.ok.injEq, Prod.mk.injEq] at h
                    exact Or.inr (Or.inl ⟨rfl, hcomp, h.1.symm, h.2.symm⟩)
                  · rw [if_neg hcomp] at h
                    exact Or.inr (Or.inr ⟨rfl, by simpa using hcomp, h⟩)
        · rw [if_neg hexp] at h
          simp only [Except.ok.injEq, Prod.mk.injEq] at h
          exact Or.inr (Or.inr (Or.inl ⟨c, hga.1, hga.2, rfl,
            by simpa using hexp, h.1.symm, h.2.symm⟩))

/-! ### Preservation of the runtime invariants -/

theorem none_on_clock_count (s : EngineState)
    (h : get_current_pick s = none) : on_clock_count s = 0 := by
  unfold on_clock_count
  rw [List.countP_eq_zero]
  intro p hp
  exact List.find?_eq_none.mp h p hp

theorem build_picks_distinct (base_order : List Nat) (rounds : Nat)
    (dt : String) :
    (build_picks base_order rounds dt).Pairwise
      (fun a b => a.pick_number ≠ b.pick_number) := by
  have hmap := _build_rounds_map_pick_number base_order dt rounds 1 1
  have hlt : ((build_picks base_order rounds dt).map
      (fun p => p.pick_number)).Pairwise (· < ·) := by
    rw [build_picks, hmap]
    exact List.pairwise_lt_range' 1 (rounds * base_order.length)
  rw [List.pairwise_map] at hlt
  exact hlt.imp (fun h => Nat.ne_of_lt h)

theorem count_resolved (picks : List DraftPick) (c : DraftPick)
    (f : DraftPick → DraftPick) (hc_mem : c ∈ picks)
    (hc_st : (c.status == PickStatus.onClock) = true)
    (hdist : picks.Pairwise (fun a b => a.pick_number ≠ b.pick_number))
    (hcount : picks.countP (fun p => p.status == PickStatus.onClock) = 1)
    (hf : ∀ p, ((f p).status == PickStatus.onClock) = false) :
    (save_pick picks c.pick_number f).countP
      (fun p => p.status == PickStatus.onClock) = 0 := by
  rw [countP_save_pick]
  have h1 : picks.countP (fun p =>
      p.pick_number == c.pick_number &&
        ((f p).status == PickStatus.onClock)) = 0 := by
    rw [List.countP_eq_zero]
    intro p hp
    simp [hf p]
  have h2 := countP_split_at picks c hc_mem hdist
    (fun p => p.status == PickStatus.onClock)
  rw [hcount, if_pos hc_st] at h2
  omega

theorem count_set_on_clock (picks : List DraftPick) (k now : Nat)
    (np : DraftPick)
    (hfind : picks.find? (fun p => p.pick_number == k) = some np)
    (hdist : picks.Pairwise (fun a b => a.pick_number ≠ b.pick_number))
    (hcount : picks.countP (fun p => p.status == PickStatus.onClock) = 0) :
    (save_pick picks k (fun p => _set_on_clock p now)).countP
      (fun p => p.status == PickStatus.onClock) = 1 := by
  have hnp_mem : np ∈ picks := List.mem_of_find?_eq_some hfind
  have hnp_num : np.pick_number = k := by
    have := List.find?_some hfind
    simpa using this
  rw [countP_save_pick]
  have h1 : picks.countP (fun p =>
      p.pick_number == k &&
        ((_set_on_clock p now).status == PickStatus.onClock)) =
      picks.countP (fun p =>
        p.pick_number == np.pick_number && true) := by
    apply List.countP_congr
    intro p _
    rw [hnp_num]
    simp [_set_on_clock]
  have h2 := countP_unique_num picks np hnp_mem hdist (fun _ => true)
  have h3 : picks.countP (fun p =>
      !(p.pick_number == k) &&
        (p.status == PickStatus.onClock)) = 0 := by
    have hle := List.countP_mono_left (l := picks)
      (p := fun p => !(p.pick_number == k) &&
        (p.status == PickStatus.onClock))
      (q := fun p => p.status == PickStatus.onClock)
      (fun x _ hx => by
        simp only [Bool.and_eq_true] at hx
        exact hx.2)
    omega
  rw [h1, h2, h3]
  simp

theorem advance_preserves_inv (s : EngineState) (now : Nat)
    (s' : EngineState) (r : Option DraftPick)
    (hdist : distinct_pick_numbers s) (hcount : on_clock_count s = 0)
    (hact : s.draft.is_active = true)
    (h : advance_to_next_pick s now = .ok (s', r)) :
    on_clock_invariant s' ∧ (r = none → s'.draft.is_completed = true) := by
  rcases advance_cases s now s' r h with
    ⟨hgt, hs', rfl⟩ | ⟨hle, np, hfind, hs', rfl⟩
  · refine ⟨⟨?_, ?_⟩, fun _ => by rw [hs']⟩
    · rw [hs'] at *
      exact hdist
    · rw [hs']
      simp only
      rw [if_neg (by simp)]
      exact hcount
  · refine ⟨⟨?_, ?_⟩, fun hcontra => by cases hcontra⟩
    · unfold distinct_pick_numbers at *
      rw [hs']
      exact save_pick_preserves_distinct _ _ _ (fun p => rfl) hdist
    · unfold on_clock_count at *
      rw [hs']
      simp only
      rw [if_pos hact]
      exact count_set_on_clock s.picks (s.draft.current_pick + 1) now np
        hfind hdist hcount

theorem resolved_state_inv (s : EngineState) (c : DraftPick)
    (f : DraftPick → DraftPick)
    (hf : ∀ p, ((f p).status == PickStatus.onClock) = false)
    (hc : get_current_pick s = some c)
    (hdist : distinct_pick_numbers s)
    (hcount : on_clock_count s = 1) :
    (save_pick s.picks c.pick_number f).countP
      (fun p => p.status == PickStatus.onClock) = 0 := by
  have hc' : s.picks.find? (fun p => p.status == PickStatus.onClock) =
      some c := hc
  have hst : (c.status == PickStatus.onClock) = true := by
    have h2 := List.find?_some hc'
    exact h2
  exact count_resolved s.picks c f (List.mem_of_find?_eq_some hc')
    hst hdist hcount hf

theorem autopick_preserves_inv (s : EngineState) (now : Nat)
    (s' : EngineState) (ret : DraftPick)
    (hinv : on_clock_invariant s)
    (h : autopick_current s now = .ok (s', ret)) :
    on_clock_invariant s' ∧
    (get_current_pick s' = none → s'.draft.is_completed = true) := by
  obtain ⟨c, hc, hcase⟩ := autopick_ok_inv s now s' ret h
  have hact : s.draft.is_active = true := by
    by_cases ha : s.draft.is_active = true
    · exact ha
    · have h0 : on_clock_count s = 0 := by
        rw [hinv.2, if_neg ha]
      have hc' : s.picks.find? (fun p => p.status == PickStatus.onClock) =
          some c := hc
      have hst : (c.status == PickStatus.onClock) = true := by
        have h2 := List.find?_some hc'
        exact h2
      have hcmem : c ∈ s.picks := List.mem_of_find?_eq_some hc'
      have := List.countP_eq_zero.mp h0 c hcmem
      simp_all
  have hcount1 : on_clock_count s = 1 := by
    rw [hinv.2, if_pos hact]
  have main : ∀ (R : EngineState) (g : DraftPick → DraftPick),
      R.picks = save_pick s.picks c.pick_number g →
      R.draft = s.draft →
      (∀ p, ((g p).status == PickStatus.onClock) = false) →
      (∀ p, (g p).pick_number = p.pick_number) →
      (∀ r, advance_to_next_pick R now = .ok (s', r) →
        on_clock_invariant s' ∧
          (get_current_pick s' = none → s'.draft.is_completed = true)) := by
    intro R g hRp hRd hg hg_num r hadv
    have hRdist : distinct_pick_numbers R := by
      unfold distinct_pick_numbers
      rw [hRp]
      exact save_pick_preserves_distinct _ _ _ hg_num hinv.1
    have hRcount : on_clock_count R = 0 := by
      unfold on_clock_count
      rw [hRp]
      exact resolved_state_inv s c g hg hc hinv.1 hcount1
    have hRact : R.draft.is_active = true := by rw [hRd]; exact hact
    obtain ⟨hinv', hcomp⟩ :=
      advance_preserves_inv R now s' r hRdist hRcount hRact hadv
    refine ⟨hinv', ?_⟩
    intro hnone
    have h0 := none_on_clock_count s' hnone
    rw [hinv'.2] at h0
    by_cases hact' : s'.draft.is_active = true
    · rw [if_pos hact'] at h0
      cases h0
    · -- inactive after an advance that did not complete is impossible;
      -- the complete branch is the only one that clears is_active
      rcases advance_cases R now s' r hadv with
        ⟨_, hs', _⟩ | ⟨_, np, _, hs', _⟩
      · rw [hs']
      · rw [hs'] at hact'
        simp only at hact'
        exact absurd hRact hact'
  rcases hcase with ⟨pl, _, r, hadv⟩ | ⟨_, r, hadv⟩
  · exact main (auto_assigned_state s c pl now) (auto_assign pl now) rfl rfl
      (fun p => rfl) (fun p => rfl) r hadv
  · exact main (auto_marked_state s c now) (auto_mark now) rfl rfl
      (fun p => rfl) (fun p => rfl) r hadv

theorem make_pick_preserves_inv (s : EngineState)
    (userId player_id now : Nat) (s' : EngineState) (ret : DraftPick)
    (hinv : on_clock_invariant s)
    (h : make_pick s userId player_id now = .ok (s', ret)) :
    on_clock_invariant s' := by
  obtain ⟨hact, _, c, hc, _, r, hadv⟩ :=
    make_pick_ok_inv s userId player_id now s' ret h
  have hcount1 : on_clock_count s = 1 := by
    rw [hinv.2, if_pos hact]
  have hRdist : distinct_pick_numbers (made_state s c player_id now) := by
    unfold distinct_pick_numbers made_state
    exact save_pick_preserves_distinct _ _ _ (fun p => rfl) hinv.1
  have hRcount : on_clock_count (made_state s c player_id now) = 0 := by
    unfold on_clock_count made_state
    exact resolved_state_inv s c (resolve_pick player_id now) (fun p => rfl)
      hc hinv.1 hcount1
  exact (advance_preserves_inv (made_state s c player_id now) now s' r
    hRdist hRcount hact hadv).1

theorem tick_preserves_inv (s : EngineState) (now : Nat)
    (s' : EngineState) (r : Option DraftPick)
    (hinv : on_clock_invariant s)
    (h : tick_draft s now = .ok (s', r)) : on_clock_invariant s' := by
  rcases tick_ok_inv s now s' r h with
    ⟨_, rfl, _⟩ | ⟨hact, _, hnone, _⟩ |
    ⟨c, _, _, _, _, rfl, _⟩ |
    ⟨c, s1, ret1, _, _, _, _, hauto, hsub⟩
  · exact hinv
  · have h0 := none_on_clock_count s hnone
    rw [hinv.2, if_pos hact] at h0
    cases h0
  · exact hinv
  · obtain ⟨hinv1, hcomp1⟩ := autopick_preserves_inv s now s1 ret1 hinv hauto
    rcases hsub with ⟨p, _, rfl, _⟩ | ⟨_, _, rfl, _⟩ |
      ⟨hnone1, hncomp1, hadv1⟩
    · exact hinv1
    · exact hinv1
    · rw [hcomp1 hnone1] at hncomp1
      cases hncomp1

theorem start_preserves_inv (s : EngineState) (now : Nat)
    (s' : EngineState) (p : DraftPick)
    (hinv : on_clock_invariant s) (hinactive : s.draft.is_active = false)
    (h : start_draft s now = .ok (s', p)) : on_clock_invariant s' := by
  obtain ⟨_, first, hfind, hs', _⟩ := start_ok_inv s now s' p h
  have hcount0 : on_clock_count s = 0 := by
    rw [hinv.2, if_neg (by simp [hinactive])]
  constructor
  · unfold distinct_pick_numbers
    rw [hs']
    exact save_pick_preserves_distinct _ _ _ (fun q => rfl) hinv.1
  · rw [hs']
    simp only
    rw [ite_true]
    exact count_set_on_clock s.picks 1 now first hfind hinv.1 hcount0

/-- Every state reachable through the disciplined call pattern
satisfies the single-`ON_CLOCK` invariant. -/
theorem reach_on_clock_invariant (s : EngineState) (h : Reach s) :
    on_clock_invariant s := by
  induction h with
  | build s0 config base_order s' hperm hok =>
      obtain ⟨_, _, _, hs'⟩ := create_ok_inv s0 config base_order s' hok
      constructor
      · unfold distinct_pick_numbers
        rw [hs']
        exact build_picks_distinct base_order config.rounds
          s0.draft.draft_type
      · rw [hs']
        unfold on_clock_count
        simp only
        rw [if_neg (by simp)]
        rw [List.countP_eq_zero]
        intro p hp
        have := (mem_build_rounds_props base_order s0.draft.draft_type
          config.rounds 1 1 p hp).1
        simp [this]
  | start s0 s' now p hs hinactive hok ih =>
      exact start_preserves_inv s0 now s' p ih hinactive hok
  | tick s0 s' now r hs hok ih =>
      exact tick_preserves_inv s0 now s' r ih hok
  | makePick s0 s' userId player_id now p hs hok ih =>
      exact make_pick_preserves_inv s0 userId player_id now s' p ih hok
  | autopick s0 s' now p hs hok ih =>
      exact (autopick_preserves_inv s0 now s' p ih hok).1

/-- C3 (amended): in every state reachable through the engine's
operations as the draft-room flow invokes them — build, start on a
draft that is not already running, tick, makePick, autopick, with
advance only as their internal tail — an active draft has exactly one
`ON_CLOCK` pick row.  (The unrestricted claim is refuted by
`c3_counterexample`: a bare `advance_to_next_pick`, or a re-`start` of
a mid-run draft, leaves two rows `ON_CLOCK`.) -/
theorem c3_single_on_clock (s : EngineState) (hs : Reach s)
    (hact : s.draft.is_active = true) : on_clock_count s = 1 := by
  have hinv := reach_on_clock_invariant s hs
  rw [hinv.2, if_pos hact]

/-- Witness for C3 (amended): the started concrete draft is reachable
and has exactly one `ON_CLOCK` row. -/
theorem c3_single_on_clock_witness : on_clock_count demo_started = 1 := by
  have hbuild : Reach demo_built :=
    Reach.build demo0 ⟨2, 5⟩ [1, 2] demo_built
      (by have : demo0.teams.map Team.id = [1, 2] := rfl
          rw [this])
      (by rfl)
  have hstart : Reach demo_started :=
    Reach.start demo_built demo_started 100
      { team := 1, player := none, round_number := 1, pick_number := 1,
        status := PickStatus.onClock, started_at := some 100,
        made_at := none }
      hbuild (by decide) (by rfl)
  exact c3_single_on_clock demo_started hstart (by decide)

/-- C3 counterexample: the claim over the full operation list (bare
`advance_to_next_pick` included) is false — from the started concrete
draft one advance call yields a reachable, active state with two
`ON_CLOCK` rows. -/
theorem c3_counterexample :
    ReachAll demo_double_clock ∧
    demo_double_clock.draft.is_active = true ∧
    on_clock_count demo_double_clock = 2 := by
  have hbuild : ReachAll demo_built :=
    ReachAll.build demo0 ⟨2, 5⟩ [1, 2] demo_built
      (by have : demo0.teams.map Team.id = [1, 2] := rfl
          rw [this])
      (by rfl)
  have hstart : ReachAll demo_started :=
    ReachAll.start demo_built demo_started 100
      { team := 1, player := none, round_number := 1, pick_number := 1,
        status := PickStatus.onClock, started_at := some 100,
        made_at := none }
      hbuild (by rfl)
  have hadv : ReachAll demo_double_clock :=
    ReachAll.advance demo_started demo_double_clock 101
      (some { team := 2, player := none, round_number := 1, pick_number := 2,
              status := PickStatus.onClock, started_at := some 101,
              made_at := none })
      hstart (by rfl)
  exact ⟨hadv, by decide, by decide⟩

/-! ### No player on two picks -/

theorem nodup_save_keep (picks : List DraftPick) (k : Nat)
    (f : DraftPick → DraftPick)
    (hf_num : ∀ p, (f p).pick_number = p.pick_number)
    (hf_pl : ∀ p, (f p).player = p.player)
    (h : no_dup_players picks) : no_dup_players (save_pick picks k f) := by
  intro p1 h1 p2 h2 hne x ha
  obtain ⟨q1, hq1, he1⟩ := mem_save_pick _ _ _ _ h1
  obtain ⟨q2, hq2, he2⟩ := mem_save_pick _ _ _ _ h2
  have hp1 : p1.player = q1.player := by
    rw [he1]
    split
    · exact hf_pl q1
    · rfl
  have hp2 : p2.player = q2.player := by
    rw [he2]
    split
    · exact hf_pl q2
    · rfl
  have hn1 : p1.pick_number = q1.pick_number := by
    rw [he1]
    split
    · exact hf_num q1
    · rfl
  have hn2 : p2.pick_number = q2.pick_number := by
    rw [he2]
    split
    · exact hf_num q2
    · rfl
  rw [hp2]
  rw [hp1] at ha
  exact h q1 hq1 q2 hq2 (by omega) x ha

theorem nodup_save_assign (picks : List DraftPick) (k pid : Nat)
    (f : DraftPick → DraftPick)
    (hf_num : ∀ p, (f p).pick_number = p.pick_number)
    (hf_pl : ∀ p, (f p).player = some pid)
    (hfresh : ∀ p ∈ picks, p.player ≠ some pid)
    (h : no_dup_players picks) : no_dup_players (save_pick picks k f) := by
  intro p1 h1 p2 h2 hne x ha hb
  obtain ⟨q1, hq1, he1⟩ := mem_save_pick _ _ _ _ h1
  obtain ⟨q2, hq2, he2⟩ := mem_save_pick _ _ _ _ h2
  by_cases hk1 : q1.pick_number = k
  · by_cases hk2 : q2.pick_number = k
    · -- both rows carry pick number k, but p1 and p2 differ in number
      rw [if_pos (beq_iff_eq.mpr hk1)] at he1
      rw [if_pos (beq_iff_eq.mpr hk2)] at he2
      rw [he1, he2, hf_num, hf_num] at hne
      omega
    · rw [if_pos (beq_iff_eq.mpr hk1)] at he1
      rw [if_neg (by simp [hk2])] at he2
      rw [he1, hf_pl] at ha
      rw [he2] at hb
      have hxp : pid = x := by
        simpa using ha
      rw [← hxp] at hb
      exact hfresh q2 hq2 hb
  · by_cases hk2 : q2.pick_number = k
    · rw [if_neg (by simp [hk1])] at he1
      rw [if_pos (beq_iff_eq.mpr hk2)] at he2
      rw [he2, hf_pl] at hb
      rw [he1] at ha
      have hxp : pid = x := by
        simpa using hb
      rw [← hxp] at ha
      exact hfresh q1 hq1 ha
    · rw [if_neg (by simp [hk1])] at he1
      rw [if_neg (by simp [hk2])] at he2
      rw [he1] at ha hne
      rw [he2] at hb hne
      exact h q1 hq1 q2 hq2 hne x ha hb

theorem best_available_not_drafted (s : EngineState) (preferred : String)
    (pl : Player)
    (h : _best_available_player s preferred = some pl) :
    ∀ p ∈ s.picks, p.player ≠ some pl.id := by
  have hmem : pl ∈ available_pool s := by
    unfold _best_available_player at h
    by_cases hG : (preferred == "G") = true
    · simp only [hG, if_true] at h
      cases hpref : first_by_rank
          ((available_pool s).filter (fun q => icontainsG q.position)) with
      | some q =>
          simp only [hpref] at h
          have : q = pl := Option.some.inj h
          rw [this] at hpref
          exact List.mem_of_mem_filter (first_by_rank_mem _ _ hpref)
      | none =>
          simp only [hpref] at h
          exact first_by_rank_mem _ _ h
    · simp only [hG] at h
      by_cases hS : (preferred == "SKATER") = true
      · simp only [hS, if_true, Bool.false_eq_true, ite_false] at h
        cases hpref : first_by_rank
            ((available_pool s).filter (fun q => !icontainsG q.position)) with
        | some q =>
            simp only [hpref] at h
            have : q = pl := Option.some.inj h
            rw [this] at hpref
            exact List.mem_of_mem_filter (first_by_rank_mem _ _ hpref)
        | none =>
            simp only [hpref] at h
            exact first_by_rank_mem _ _ h
      · simp only [hS, Bool.false_eq_true, ite_false] at h
        cases hpref : first_by_rank (available_pool s) with
        | some q =>
            simp only [hpref] at h
            have : q = pl := Option.some.inj h
            rw [← this]
            exact first_by_rank_mem _ _ hpref
        | none =>
            simp only [hpref] at h
            cases h
  have hnot : pl.id ∉ drafted_ids s := by
    unfold available_pool at hmem
    have := List.of_mem_filter hmem
    simp only [Bool.and_eq_true, Bool.not_eq_true'] at this
    intro hin
    rw [List.contains_eq_any_beq] at this
    have h2 := this.2
    rw [Bool.eq_false_iff, ne_eq, List.any_eq_true] at h2
    exact h2 ⟨pl.id, hin, by simp⟩
  intro p hp hpe
  apply hnot
  unfold drafted_ids
  exact List.mem_filterMap.mpr ⟨p, hp, hpe⟩

theorem advance_preserves_players (s : EngineState) (now : Nat)
    (s' : EngineState) (r : Option DraftPick)
    (hnd : no_duplicate_players s)
    (h : advance_to_next_pick s now = .ok (s', r)) :
    no_duplicate_players s' := by
  rcases advance_cases s now s' r h with
    ⟨_, hs', _⟩ | ⟨_, np, _, hs', _⟩
  · rw [hs']
    exact hnd
  · unfold no_duplicate_players at *
    rw [hs']
    exact nodup_save_keep _ _ _ (fun p => rfl) (fun p => rfl) hnd

theorem make_pick_preserves_players (s : EngineState)
    (userId player_id now : Nat) (s' : EngineState) (ret : DraftPick)
    (hnd : no_duplicate_players s)
    (h : make_pick s userId player_id now = .ok (s', ret)) :
    no_duplicate_players s' := by
  obtain ⟨_, _, c, _, hany, r, hadv⟩ :=
    make_pick_ok_inv s userId player_id now s' ret h
  have hfresh : ∀ p ∈ s.picks, p.player ≠ some player_id := by
    intro p hp hpe
    rw [Bool.eq_false_iff, ne_eq, List.any_eq_true] at hany
    exact hany ⟨p, hp, by simp [hpe]⟩
  have hmade : no_duplicate_players (made_state s c player_id now) := by
    unfold no_duplicate_players made_state
    exact nodup_save_assign s.picks c.pick_number player_id
      (resolve_pick player_id now) (fun p => rfl) (fun p => rfl) hfresh hnd
  exact advance_preserves_players _ now s' r hmade hadv

theorem autopick_preserves_players (s : EngineState) (now : Nat)
    (s' : EngineState) (ret : DraftPick)
    (hnd : no_duplicate_players s)
    (h : autopick_current s now = .ok (s', ret)) :
    no_duplicate_players s' := by
  obtain ⟨c, hc, hcase⟩ := autopick_ok_inv s now s' ret h
  rcases hcase with ⟨pl, hbest, r, hadv⟩ | ⟨hbest, r, hadv⟩
  · have hfresh := best_available_not_drafted s
      (_infer_team_need s c.team) pl hbest
    have hmarked : no_duplicate_players (auto_assigned_state s c pl now) := by
      unfold no_duplicate_players auto_assigned_state
      exact nodup_save_assign s.picks c.pick_number pl.id
        (auto_assign pl now) (fun p => rfl) (fun p => rfl) hfresh hnd
    exact advance_preserves_players _ now s' r hmarked hadv
  · have hmarked : no_duplicate_players (auto_marked_state s c now) := by
      unfold no_duplicate_players auto_marked_state
      exact nodup_save_keep _ _ _ (fun p => rfl) (fun p => rfl) hnd
    exact advance_preserves_players _ now s' r hmarked hadv

theorem tick_preserves_players (s : EngineState) (now : Nat)
    (s' : EngineState) (r : Option DraftPick)
    (hnd : no_duplicate_players s)
    (h : tick_draft s now = .ok (s', r)) : no_duplicate_players s' := by
  rcases tick_ok_inv s now s' r h with
    ⟨_, rfl, _⟩ | ⟨_, _, _, hadv⟩ |
    ⟨c, _, _, _, _, rfl, _⟩ |
    ⟨c, s1, ret1, _, _, _, _, hauto, hsub⟩
  · exact hnd
  · exact advance_preserves_players s now s' r hnd hadv
  · exact hnd
  · have hnd1 := autopick_preserves_players s now s1 ret1 hnd hauto
    rcases hsub with ⟨p, _, rfl, _⟩ | ⟨_, _, rfl, _⟩ | ⟨_, _, hadv1⟩
    · exact hnd1
    · exact hnd1
    · exact advance_preserves_players s1 now s' r hnd1 hadv1

theorem start_preserves_players (s : EngineState) (now : Nat)
    (s' : EngineState) (p : DraftPick)
    (hnd : no_duplicate_players s)
    (h : start_draft s now = .ok (s', p)) : no_duplicate_players s' := by
  obtain ⟨_, first, _, hs', _⟩ := start_ok_inv s now s' p h
  unfold no_duplicate_players at *
  rw [hs']
  exact nodup_save_keep _ _ _ (fun q => rfl) (fun q => rfl) hnd

/-- Every state reachable through any sequence of engine operations has
no player resolved on two different picks. -/
theorem reachall_players_invariant (s : EngineState) (h : ReachAll s) :
    no_duplicate_players s := by
  induction h with
  | build s0 config base_order s' hperm hok =>
      obtain ⟨_, _, _, hs'⟩ := create_ok_inv s0 config base_order s' hok
      unfold no_duplicate_players no_dup_players
      rw [hs']
      intro p1 h1 p2 h2 hne x ha
      have := (mem_build_rounds_props base_order s0.draft.draft_type
        config.rounds 1 1 p1 h1).2
      rw [this] at ha
      cases ha
  | start s0 s' now p hs hok ih =>
      exact start_preserves_players s0 now s' p ih hok
  | tick s0 s' now r hs hok ih =>
      exact tick_preserves_players s0 now s' r ih hok
  | makePick s0 s' userId player_id now p hs hok ih =>
      exact make_pick_preserves_players s0 userId player_id now s' p ih hok
  | autopick s0 s' now p hs hok ih =>
      exact autopick_preserves_players s0 now s' p ih hok
  | advance s0 s' now r hs hok ih =>
      exact advance_preserves_players s0 now s' r ih hok

/-- C5: in every state reachable through the engine's operations, no
player is the resolved player of two different `DraftPick` rows of the
draft — `make_pick` rejects an already-drafted player and the
auto-picker excludes every player already resolved into any pick. -/
theorem c5_no_duplicate_players (s : EngineState) (hs : ReachAll s) :
    no_duplicate_players s :=
  reachall_players_invariant s hs

/-- Witness for C5: a reachable mid-draft state with two resolved picks
has no duplicated player. -/
theorem c5_no_duplicate_players_witness :
    no_duplicate_players demo_mid2 := by
  have hbuild : ReachAll demo_built :=
    ReachAll.build demo0 ⟨2, 5⟩ [1, 2] demo_built
      (by have : demo0.teams.map Team.id = [1, 2] := rfl
          rw [this])
      (by rfl)
  have hstart : ReachAll demo_started :=
    ReachAll.start demo_built demo_started 100
      { team := 1, player := none, round_number := 1, pick_number := 1,
        status := PickStatus.onClock, started_at := some 100,
        made_at := none }
      hbuild (by rfl)
  have hmid1 : ReachAll demo_mid1 :=
    ReachAll.makePick demo_started demo_mid1 10 102 101
      { team := 2, player := none, round_number := 1, pick_number := 2,
        status := PickStatus.onClock, started_at := some 101,
        made_at := none }
      hstart (by rfl)
  have hmid2 : ReachAll demo_mid2 :=
    ReachAll.makePick demo_mid1 demo_mid2 20 103 102
      { team := 2, player := none, round_number := 2, pick_number := 3,
        status := PickStatus.onClock, started_at := some 102,
        made_at := none }
      hmid1 (by rfl)
  exact c5_no_duplicate_players demo_mid2 hmid2

/-! ### Bounds on the current pick counter -/

theorem advance_preserves_bounds (s : EngineState) (now : Nat)
    (s' : EngineState) (r : Option DraftPick) (hb : pick_bounds s)
    (h : advance_to_next_pick s now = .ok (s', r)) : pick_bounds s' := by
  obtain ⟨h1, h2, h3, h4⟩ := hb
  rcases advance_cases s now s' r h with
    ⟨hgt, hs', _⟩ | ⟨hle, np, _, hs', _⟩
  · rw [hs']
    exact ⟨h1, h2, h3, h4⟩
  · rw [hs']
    exact ⟨h1, h2, Nat.succ_le_succ (Nat.zero_le _), hle⟩

theorem make_pick_preserves_bounds (s : EngineState)
    (userId player_id now : Nat) (s' : EngineState) (ret : DraftPick)
    (hb : pick_bounds s)
    (h : make_pick s userId player_id now = .ok (s', ret)) :
    pick_bounds s' := by
  obtain ⟨_, _, c, _, _, r, hadv⟩ :=
    make_pick_ok_inv s userId player_id now s' ret h
  exact advance_preserves_bounds (made_state s c player_id now) now s' r hb
    hadv

theorem autopick_preserves_bounds (s : EngineState) (now : Nat)
    (s' : EngineState) (ret : DraftPick) (hb : pick_bounds s)
    (h : autopick_current s now = .ok (s', ret)) : pick_bounds s' := by
  obtain ⟨c, _, hcase⟩ := autopick_ok_inv s now s' ret h
  rcases hcase with ⟨pl, _, r, hadv⟩ | ⟨_, r, hadv⟩
  · exact advance_preserves_bounds (auto_assigned_state s c pl now) now s' r
      hb hadv
  · exact advance_preserves_bounds (auto_marked_state s c now) now s' r hb
      hadv

theorem tick_preserves_bounds (s : EngineState) (now : Nat)
    (s' : EngineState) (r : Option DraftPick) (hb : pick_bounds s)
    (h : tick_draft s now = .ok (s', r)) : pick_bounds s' := by
  rcases tick_ok_inv s now s' r h with
    ⟨_, rfl, _⟩ | ⟨_, _, _, hadv⟩ |
    ⟨c, _, _, _, _, rfl, _⟩ |
    ⟨c, s1, ret1, _, _, _, _, hauto, hsub⟩
  · exact hb
  · exact advance_preserves_bounds s now s' r hb hadv
  · exact hb
  · have hb1 := autopick_preserves_bounds s now s1 ret1 hb hauto
    rcases hsub with ⟨p, _, rfl, _⟩ | ⟨_, _, rfl, _⟩ | ⟨_, _, hadv1⟩
    · exact hb1
    · exact hb1
    · exact advance_preserves_bounds s1 now s' r hb1 hadv1

theorem start_preserves_bounds (s : EngineState) (now : Nat)
    (s' : EngineState) (p : DraftPick) (hb : pick_bounds s)
    (h : start_draft s now = .ok (s', p)) : pick_bounds s' := by
  obtain ⟨_, first, _, hs', _⟩ := start_ok_inv s now s' p h
  obtain ⟨h1, h2, _, _⟩ := hb
  rw [hs']
  refine ⟨h1, h2, Nat.le_refl 1, ?_⟩
  show (1 : Nat) ≤ s.draft.rounds * s.teams.length
  have := Nat.mul_le_mul h1 h2
  omega

/-- Every state reachable through any sequence of engine operations on a
built draft keeps `current_pick` within `1..rounds*teamCount`. -/
theorem reachall_pick_bounds (s : EngineState) (h : ReachAll s) :
    pick_bounds s := by
  induction h with
  | build s0 config base_order s' hperm hok =>
      obtain ⟨h1, _, h3, hs'⟩ := create_ok_inv s0 config base_order s' hok
      rw [hs']
      refine ⟨h1, h3, Nat.le_refl 1, ?_⟩
      show (1 : Nat) ≤ config.rounds * s0.teams.length
      have := Nat.mul_le_mul h1 h3
      omega
  | start s0 s' now p hs hok ih =>
      exact start_preserves_bounds s0 now s' p ih hok
  | tick s0 s' now r hs hok ih =>
      exact tick_preserves_bounds s0 now s' r ih hok
  | makePick s0 s' userId player_id now p hs hok ih =>
      exact make_pick_preserves_bounds s0 userId player_id now s' p ih hok
  | autopick s0 s' now p hs hok ih =>
      exact autopick_preserves_bounds s0 now s' p ih hok
  | advance s0 s' now r hs hok ih =>
      exact advance_preserves_bounds s0 now s' r ih hok

/-- C10: in every state reachable through the engine's operations on a
built draft, `current_pick` stays within `1..rounds*teamCount`:
`start_draft` sets it to 1, `advance_to_next_pick` increments it only
while the incremented value does not exceed `rounds*teamCount`, and the
completing advance leaves it unchanged at the final pick's number. -/
theorem c10_current_pick_bounded (s : EngineState) (hs : ReachAll s) :
    1 ≤ s.draft.current_pick ∧
    s.draft.current_pick ≤ s.draft.rounds * s.teams.length := by
  obtain ⟨_, _, h3, h4⟩ := reachall_pick_bounds s hs
  exact ⟨h3, h4⟩

/-- Witness for C10: the completed concrete draft ends with
`current_pick = 4 = rounds * teamCount`. -/
theorem c10_current_pick_bounded_witness :
    1 ≤ demo_completed.draft.current_pick ∧
    demo_completed.draft.current_pick ≤
      demo_completed.draft.rounds * demo_completed.teams.length := by
  have hbuild : ReachAll demo_built :=
    ReachAll.build demo0 ⟨2, 5⟩ [1, 2] demo_built
      (by have : demo0.teams.map Team.id = [1, 2] := rfl
          rw [this])
      (by rfl)
  have hstart : ReachAll demo_started :=
    ReachAll.start demo_built demo_started 100
      { team := 1, player := none, round_number := 1, pick_number := 1,
        status := PickStatus.onClock, started_at := some 100,
        made_at := none }
      hbuild (by rfl)
  have hmid1 : ReachAll demo_mid1 :=
    ReachAll.makePick demo_started demo_mid1 10 102 101
      { team := 2, player := none, round_number := 1, pick_number := 2,
        status := PickStatus.onClock, started_at := some 101,
        made_at := none }
      hstart (by rfl)
  have hmid2 : ReachAll demo_mid2 :=
    ReachAll.makePick demo_mid1 demo_mid2 20 103 102
      { team := 2, player := none, round_number := 2, pick_number := 3,
        status := PickStatus.onClock, started_at := some 102,
        made_at := none }
      hmid1 (by rfl)
  have hlast : ReachAll demo_last_on_clock :=
    ReachAll.makePick demo_mid2 demo_last_on_clock 20 101 103
      { team := 1, player := none, round_number := 2, pick_number := 4,
        status := PickStatus.onClock, started_at := some 103,
        made_at := none }
      hmid2 (by rfl)
  have hdone : ReachAll demo_completed :=
    ReachAll.makePick demo_last_on_clock demo_completed 10 104 104
      { team := 1, player := some 104, round_number := 2, pick_number := 4,
        status := PickStatus.made, started_at := some 103,
        made_at := some 104 }
      hlast (by rfl)
  exact c10_current_pick_bounded demo_completed hdone

/-- C7: `autopick_current` on the current `ON_CLOCK` pick selects,
among active players not already resolved into any pick of the draft,
the highest-ranked player — ties broken by name ascending — of the
goalie pool when the owning team's roster has fewer than 2 goalies and
of the skater pool otherwise; when the preferred pool is empty it falls
back to the unrestricted pool with the same exclusions and tie-break;
and when no eligible player remains at all the pick is still resolved
(`AUTO`, player untouched/none) and `advance_to_next_pick` still
runs. -/
theorem c7_autopick_selection (s : EngineState) (now : Nat) (c : DraftPick)
    (hc : get_current_pick s = some c)
    (hdist : distinct_pick_numbers s)
    (hcur : c.pick_number = s.draft.current_pick) :
    (∀ pl, _best_available_player s (_infer_team_need s c.team) = some pl →
      (preferred_pool s c.team ≠ [] →
        pl ∈ preferred_pool s c.team ∧
        ∀ q ∈ preferred_pool s c.team, rank_before q pl = false) ∧
      (preferred_pool s c.team = [] →
        pl ∈ available_pool s ∧
        ∀ q ∈ available_pool s, rank_before q pl = false)) ∧
    (_best_available_player s (_infer_team_need s c.team) = none →
      available_pool s = []) ∧
    (_best_available_player s (_infer_team_need s c.team) = none →
      ∀ s' ret, autopick_current s now = .ok (s', ret) →
        ret = auto_mark now c ∧ ret.status = PickStatus.auto ∧
        ret.player = c.player ∧
        (∀ pk ∈ s'.picks, pk.pick_number = c.pick_number →
          pk.status = PickStatus.auto ∧ pk.player = c.player) ∧
        (s'.draft.current_pick = s.draft.current_pick + 1 ∨
          s'.draft.is_completed = true)) ∧
    (∀ pl, _best_available_player s (_infer_team_need s c.team) = some pl →
      ∀ s' ret, autopick_current s now = .ok (s', ret) →
        ret = auto_assign pl now c ∧ ret.status = PickStatus.auto ∧
        ret.player = some pl.id ∧
        (∀ pk ∈ s'.picks, pk.pick_number = c.pick_number →
          pk.status = PickStatus.auto ∧ pk.player = some pl.id) ∧
        (c.team, pl.id) ∈ s'.roster ∧
        (s'.draft.current_pick = s.draft.current_pick + 1 ∨
          s'.draft.is_completed = true)) := by
  have hcmem : c ∈ s.picks := List.mem_of_find?_eq_some hc
  refine ⟨?_, ?_, ?_, ?_⟩
  · intro pl hbest
    rw [best_available_eq] at hbest
    cases hpref : first_by_rank (preferred_pool s c.team) with
    | some q =>
        simp only [hpref] at hbest
        have hqpl : q = pl := Option.some.inj hbest
        rw [hqpl] at hpref
        constructor
        · intro _
          exact ⟨first_by_rank_mem _ _ hpref,
            first_by_rank_optimal _ pl hpref⟩
        · intro he
          rw [he] at hpref
          cases hpref
    | none =>
        simp only [hpref] at hbest
        have hprefnil : preferred_pool s c.team = [] :=
          (first_by_rank_eq_none _).mp hpref
        constructor
        · intro hne
          exact absurd hprefnil hne
        · intro _
          exact ⟨first_by_rank_mem _ _ hbest,
            first_by_rank_optimal _ pl hbest⟩
  · intro hbest
    rw [best_available_eq] at hbest
    cases hpref : first_by_rank (preferred_pool s c.team) with
    | some q => simp only [hpref] at hbest; cases hbest
    | none =>
        simp only [hpref] at hbest
        exact (first_by_rank_eq_none _).mp hbest
  · intro hbest s' ret hok
    unfold autopick_current at hok
    simp only [hc, hbest] at hok
    cases hadv : advance_to_next_pick (auto_marked_state s c now) now with
    | error e => rw [hadv] at hok; cases hok
    | ok pr =>
        obtain ⟨s2, r2⟩ := pr
        rw [hadv] at hok
        simp only [Except.ok.injEq, Prod.mk.injEq] at hok
        obtain ⟨rfl, hret⟩ := hok
        obtain ⟨hresolved, _, hmove⟩ :=
          autopick_resolved_after_advance s (auto_marked_state s c now) now c
            (auto_mark now) rfl rfl hdist hcmem hcur s2 r2 hadv
        refine ⟨hret.symm, by rw [← hret]; rfl, by rw [← hret]; rfl, ?_, hmove⟩
        intro pk hpk hnum
        rw [hresolved pk hpk hnum]
        exact ⟨rfl, rfl⟩
  · intro pl hbest s' ret hok
    unfold autopick_current at hok
    simp only [hc, hbest] at hok
    cases hadv : advance_to_next_pick (auto_assigned_state s c pl now) now with
    | error e => rw [hadv] at hok; cases hok
    | ok pr =>
        obtain ⟨s2, r2⟩ := pr
        rw [hadv] at hok
        simp only [Except.ok.injEq, Prod.mk.injEq] at hok
        obtain ⟨rfl, hret⟩ := hok
        obtain ⟨hresolved, hroster, hmove⟩ :=
          autopick_resolved_after_advance s (auto_assigned_state s c pl now)
            now c (auto_assign pl now) rfl rfl hdist hcmem hcur s2 r2 hadv
        refine ⟨hret.symm, by rw [← hret]; rfl, by rw [← hret]; rfl, ?_, ?_,
          hmove⟩
        · intro pk hpk hnum
          rw [hresolved pk hpk hnum]
          exact ⟨rfl, rfl⟩
        · rw [hroster]
          exact mem_roster_get_or_create _ _ _

/-- Witness for C7: on the started concrete draft team 1 has no
rostered goalie, so the auto-picker takes Gabe (the best goalie) and
roster-inserts him. -/
theorem c7_autopick_selection_witness :
    ∃ s' ret, autopick_current demo_started 101 = .ok (s', ret) ∧
      ret.player = some 101 ∧ ret.status = PickStatus.auto ∧
      (1, 101) ∈ s'.roster := by
  have h := (c7_autopick_selection demo_started 101
    { team := 1, player := none, round_number := 1, pick_number := 1,
      status := PickStatus.onClock, started_at := some 100, made_at := none }
    (by decide) (by unfold distinct_pick_numbers; decide) (by decide)).2.2.2
  have hbest : _best_available_player demo_started
      (_infer_team_need demo_started 1) =
      some { id := 101, full_name := "Gabe", position := "G",
             fantasy_score := 50, is_active := true } := by decide
  have hok : autopick_current demo_started 101 =
      .ok (demo_autopicked,
        auto_assign { id := 101, full_name := "Gabe", position := "G",
                      fantasy_score := 50, is_active := true } 101
          { team := 1, player := none, round_number := 1, pick_number := 1,
            status := PickStatus.onClock, started_at := some 100,
            made_at := none }) := by rfl
  obtain ⟨_, hst, hplayer, _, hroster, _⟩ := h
    { id := 101, full_name := "Gabe", position := "G",
      fantasy_score := 50, is_active := true } hbest _ _ hok
  exact ⟨_, _, hok, hplayer, hst, hroster⟩

end DraftServices

end FantasyHockey
